import Mathlib

/-!
Verification development for the Voice-Calendar-Booker repository.

We give a shallow embedding of the natural-language date/time resolution
code in `app.py` (`validate_and_correct_dates`, `extract_event_fallback`)
and of the dispatch decision in `voice_calendar_orchestrator.py`
(`handle_once`, `compute_end`), and prove the specified properties.

Strings are embedded as `List Char` (written `Str`); Python `datetime`
values are embedded as the record `PyDateTime` with explicit calendar
arithmetic; Python regular-expression searches are embedded as explicit
left-to-right scanners that follow the alternation order and greediness
of the concrete patterns appearing in the source; `None`-able values and
code paths whose Python original raises a caught exception are embedded
with `Option`.
-/

namespace VoiceCal

abbrev Str := List Char

/-- Python regex `\s` over the ASCII range (the only characters relevant
to the utterances handled by the code). -/
def isSpaceChar (c : Char) : Bool :=
  c = ' ' || c = '\t' || c = '\n' || c = '\x0d' || c = '\x0b' || c = '\x0c'

/-- Python regex `\d` over ASCII. -/
def isDigitChar (c : Char) : Bool := '0' ≤ c && c ≤ '9'

def digitVal (c : Char) : Nat := c.toNat - '0'.toNat

def digitChar (n : Nat) : Char := Char.ofNat (48 + n)

/-- `str.lower()` restricted to ASCII, which covers every pattern the
code matches against. -/
def toLowerStr (s : Str) : Str := s.map Char.toLower

/-- If `p` is a leading pattern of `s`, return the remainder of `s`
(the embedding of anchoring a literal at the current scan position). -/
def dropLead : Str → Str → Option Str
  | [], s => some s
  | _ :: _, [] => none
  | p :: ps, c :: cs => if p = c then dropLead ps cs else none

/-- Scan positions left to right (the behaviour of `re.search`) trying
the positional matcher `f`; the first position where `f` succeeds wins. -/
def searchFrom (f : Str → Option α) : Str → Option α
  | [] => f []
  | c :: cs =>
    match f (c :: cs) with
    | some r => some r
    | none => searchFrom f cs

/-- Python `pat in s` substring test. -/
def containsSub (s pat : Str) : Bool := (searchFrom (dropLead pat) s).isSome

def dropSpaces (s : Str) : Str := s.dropWhile isSpaceChar

/-- Embedding of `\s+` followed by greedy skipping: requires at least one
whitespace character, consumes the whole run. -/
def skipSpaces1 : Str → Option Str
  | [] => none
  | c :: cs => if isSpaceChar c then some (dropSpaces cs) else none

/-- Greedy `(\d{1,2})`: one digit required, a second taken if present. -/
def read1or2Digits : Str → Option (Nat × Str)
  | [] => none
  | c :: cs =>
    if isDigitChar c then
      match cs with
      | d :: ds =>
        if isDigitChar d then some (digitVal c * 10 + digitVal d, ds)
        else some (digitVal c, cs)
      | [] => some (digitVal c, [])
    else none

/-- `(\d{2})`: exactly two digits. -/
def read2Digits : Str → Option (Nat × Str)
  | c :: d :: rest =>
    if isDigitChar c && isDigitChar d then some (digitVal c * 10 + digitVal d, rest)
    else none
  | _ => none

/-- Greedy `(\d+)`. -/
def readDigits1 (s : Str) : Option (Nat × Str) :=
  let run := s.takeWhile isDigitChar
  if run.isEmpty then none
  else some (run.foldl (fun a c => a * 10 + digitVal c) 0, s.dropWhile isDigitChar)

/-- Decimal rendering of a natural number, as Python `str`/f-strings
produce it. -/
def natToStrAux : Nat → Nat → Str
  | 0, _ => []
  | f + 1, n =>
    if n < 10 then [digitChar n]
    else natToStrAux f (n / 10) ++ [digitChar (n % 10)]

def natToStr (n : Nat) : Str := natToStrAux (n + 1) n

/-! ## Dates and times

Embedding of the Python `datetime` values flowing through the code.
Python caps years at 9999; the embedding leaves years unbounded and the
theorems carry explicit year bounds where the bound matters. -/

structure PyDateTime where
  year : Nat
  month : Nat
  day : Nat
  hour : Nat
  minute : Nat
  second : Nat
deriving DecidableEq, Repr

def isLeap (y : Nat) : Bool := y % 4 = 0 && (y % 100 ≠ 0 || y % 400 = 0)

def daysInMonth (y m : Nat) : Nat :=
  if m = 2 then (if isLeap y then 29 else 28)
  else if m = 4 || m = 6 || m = 9 || m = 11 then 30
  else 31

/-- Calendar-validity of the date fields (the check `datetime(y, m, d)`
performs, minus Python's 9999 year cap which is tracked separately). -/
def DateOk (dt : PyDateTime) : Prop :=
  1 ≤ dt.month ∧ dt.month ≤ 12 ∧ 1 ≤ dt.day ∧ dt.day ≤ daysInMonth dt.year dt.month ∧
    1 ≤ dt.year

instance (dt : PyDateTime) : Decidable (DateOk dt) := by
  unfold DateOk; infer_instance

/-- `datetime(year, month, day)` (midnight); `none` embeds the
`ValueError` raised on an invalid calendar date. -/
def mkDate (y m d : Nat) : Option PyDateTime :=
  if 1 ≤ m ∧ m ≤ 12 ∧ 1 ≤ d ∧ d ≤ daysInMonth y m ∧ 1 ≤ y ∧ y ≤ 9999 then
    some ⟨y, m, d, 0, 0, 0⟩
  else none

/-- Successor date, time-of-day preserved. -/
def nextDayDate (dt : PyDateTime) : PyDateTime :=
  if dt.day < daysInMonth dt.year dt.month then { dt with day := dt.day + 1 }
  else if dt.month < 12 then { dt with month := dt.month + 1, day := 1 }
  else { dt with year := dt.year + 1, month := 1, day := 1 }

/-- `dt + timedelta(days=n)`. -/
def addDaysN (dt : PyDateTime) : Nat → PyDateTime
  | 0 => dt
  | n + 1 => nextDayDate (addDaysN dt n)

/-- Days of the months strictly before month `m` in year `y`. -/
def daysBeforeMonth (y : Nat) : Nat → Nat
  | 0 => 0
  | 1 => 0
  | m + 1 => daysBeforeMonth y m + daysInMonth y m

/-- Proleptic-Gregorian day index of a date (day 0 = 0001-01-01). -/
def dateToDays (dt : PyDateTime) : Nat :=
  365 * (dt.year - 1) + (dt.year - 1) / 4 + (dt.year - 1) / 400 +
      daysBeforeMonth dt.year dt.month + (dt.day - 1) -
    (dt.year - 1) / 100

/-- Python `datetime.weekday()`: Monday = 0 … Sunday = 6. -/
def pyWeekday (dt : PyDateTime) : Nat := dateToDays dt % 7

/-- `dt + timedelta(minutes=n)` (also used for `timedelta(hours=h)` as
`n = 60 * h`), with day rollover. -/
def addMinutes (dt : PyDateTime) (n : Nat) : PyDateTime :=
  let total := dt.hour * 60 + dt.minute + n
  let d2 := addDaysN dt (total / 1440)
  { d2 with hour := total % 1440 / 60, minute := total % 60 }

/-- `datetime.replace(hour=h, minute=mi, second=0, microsecond=0)`;
`none` embeds the `ValueError` on an out-of-range field. -/
def replaceTime (dt : PyDateTime) (h mi : Nat) : Option PyDateTime :=
  if h ≤ 23 ∧ mi ≤ 59 then some { dt with hour := h, minute := mi, second := 0 }
  else none

/-- Time-of-day fields in the ranges Python `datetime` guarantees. -/
def TimeOk (dt : PyDateTime) : Prop := dt.hour ≤ 23 ∧ dt.minute ≤ 59 ∧ dt.second ≤ 59

instance (dt : PyDateTime) : Decidable (TimeOk dt) := by
  unfold TimeOk; infer_instance

def pad2 (n : Nat) : Str := [digitChar (n / 10), digitChar (n % 10)]

def pad4 (n : Nat) : Str := pad2 (n / 100) ++ pad2 (n % 100)

/-- `datetime.strftime('%Y-%m-%d')`. -/
def fmtYMD (dt : PyDateTime) : Str := pad4 dt.year ++ '-' :: pad2 dt.month ++ '-' :: pad2 dt.day

/-- `datetime.isoformat()` for the microsecond-free values the code
builds. -/
def isoformat (dt : PyDateTime) : Str :=
  fmtYMD dt ++ 'T' :: pad2 dt.hour ++ ':' :: pad2 dt.minute ++ ':' :: pad2 dt.second

/-- `s.replace('Z', '+00:00')`. -/
def replaceZ (s : Str) : Str :=
  s.flatMap fun c => if c = 'Z' then "+00:00".data else [c]

/-- `datetime.fromisoformat` on the `YYYY-MM-DDTHH:MM:SS` shape, the only
shape reaching it on the success paths of the embedded code; `none`
embeds the `ValueError` on any other input. -/
def fromisoformatSimple : Str → Option PyDateTime
  | [y1, y2, y3, y4, '-', m1, m2, '-', d1, d2, 'T', h1, h2, ':', n1, n2, ':', s1, s2] =>
    if [y1, y2, y3, y4, m1, m2, d1, d2, h1, h2, n1, n2, s1, s2].all isDigitChar then
      let y := digitVal y1 * 1000 + digitVal y2 * 100 + digitVal y3 * 10 + digitVal y4
      let m := digitVal m1 * 10 + digitVal m2
      let d := digitVal d1 * 10 + digitVal d2
      let h := digitVal h1 * 10 + digitVal h2
      let mi := digitVal n1 * 10 + digitVal n2
      let se := digitVal s1 * 10 + digitVal s2
      if 1 ≤ m ∧ m ≤ 12 ∧ 1 ≤ d ∧ d ≤ daysInMonth y m ∧ 1 ≤ y ∧ h ≤ 23 ∧ mi ≤ 59 ∧ se ≤ 59 then
        some ⟨y, m, d, h, mi, se⟩
      else none
    else none
  | _ => none

/-- `datetime.fromisoformat` on a bare `YYYY-MM-DD` (used by
`compute_end`'s date-only recovery branch). -/
def fromisoformatDateOnly : Str → Option PyDateTime
  | [y1, y2, y3, y4, '-', m1, m2, '-', d1, d2] =>
    if [y1, y2, y3, y4, m1, m2, d1, d2].all isDigitChar then
      let y := digitVal y1 * 1000 + digitVal y2 * 100 + digitVal y3 * 10 + digitVal y4
      let m := digitVal m1 * 10 + digitVal m2
      let d := digitVal d1 * 10 + digitVal d2
      if 1 ≤ m ∧ m ≤ 12 ∧ 1 ≤ d ∧ d ≤ daysInMonth y m ∧ 1 ≤ y then some ⟨y, m, d, 0, 0, 0⟩
      else none
    else none
  | _ => none

/-! ## Pattern scanners

Each Python `re.search` in `app.py` is embedded as a positional matcher
wrapped in `searchFrom`.  The relevant patterns have disjoint character
classes at every quantifier boundary, so greedy matching with the stated
alternation order reproduces the backtracking engine's result. -/

/-- First member of the list on which `f` succeeds. -/
def firstSome {α β : Type} : List α → (α → Option β) → Option β
  | [], _ => none
  | a :: l, f =>
    match f a with
    | some b => some b
    | none => firstSome l f

/-- First alternative of `alts` anchored at the current position wins
(Python alternation order). -/
def matchAltList (alts : List Str) (s : Str) : Option Str :=
  firstSome alts fun a => (dropLead a s).map fun _ => a

/-- `re.search(rf"{month_name}\s+(\d{1,2})(?:st|nd|rd|th)?", ul)`,
returning group 1 as a number.  The optional ordinal suffix never
constrains the match and never reaches group 1, so it is not modelled. -/
def searchMonthDay (name : Str) (ul : Str) : Option Nat :=
  searchFrom
    (fun s =>
      (dropLead name s).bind fun r1 =>
      (skipSpaces1 r1).bind fun r2 =>
      (read1or2Digits r2).map Prod.fst)
    ul

/-- The `month_patterns` dict of `app.py`, in its (insertion) iteration
order. -/
def month_patterns : List (Str × Nat) :=
  [("january".data, 1), ("february".data, 2), ("march".data, 3), ("april".data, 4),
   ("may".data, 5), ("june".data, 6), ("july".data, 7), ("august".data, 8),
   ("september".data, 9), ("october".data, 10), ("november".data, 11),
   ("december".data, 12)]

/-- The month loop shared by `extract_event_fallback` (lines 167–181) and
the override loop of `validate_and_correct_dates` (lines 43–72): first
month name contained in the utterance whose day regex matches and whose
`datetime(current_year, month, day)` construction succeeds; a month with
an invalid day (`ValueError`) is skipped (`continue`). -/
def findAbsoluteDate (current_year : Nat) (ul : Str) : List (Str × Nat) → Option (Str × Nat × PyDateTime)
  | [] => none
  | (name, num) :: rest =>
    if containsSub ul name then
      match searchMonthDay name ul with
      | some day =>
        match mkDate current_year num day with
        | some d => some (name, day, d)
        | none => findAbsoluteDate current_year ul rest
      | none => findAbsoluteDate current_year ul rest
    else findAbsoluteDate current_year ul rest

/-- The month loop at lines 117–126 of `validate_and_correct_dates`,
which selects a (month, day) pair and then constructs the `datetime`
unguarded: the selection itself performs no validity check. -/
def findMonthDayRaw (ul : Str) : List (Str × Nat) → Option (Nat × Nat)
  | [] => none
  | (name, num) :: rest =>
    if containsSub ul name then
      match searchMonthDay name ul with
      | some day => some (num, day)
      | none => findMonthDayRaw ul rest
    else findMonthDayRaw ul rest

/-- The `day_mapping` dict (Monday = 0 … Sunday = 6). -/
def day_mapping : List (Str × Nat) :=
  [("monday".data, 0), ("tuesday".data, 1), ("wednesday".data, 2), ("thursday".data, 3),
   ("friday".data, 4), ("saturday".data, 5), ("sunday".data, 6)]

/-- `re.search(r"next\s+(monday|...|sunday)", ul)`, returning the matched
weekday name and its `day_mapping` number. -/
def searchNextDay (ul : Str) : Option (Str × Nat) :=
  searchFrom
    (fun s =>
      (dropLead "next".data s).bind fun r1 =>
      (skipSpaces1 r1).bind fun r2 =>
      firstSome day_mapping fun p => (dropLead p.1 r2).map fun _ => p)
    ul

/-- `days_until_next = (target_weekday - current_weekday) % 7` followed
by `if days_until_next <= 0: days_until_next += 7` (identical at lines
103–105 and 197–199 of `app.py`; Python `%` on `int` and Lean `Int.emod`
agree for the positive modulus 7). -/
def days_until_next (target current : Nat) : Int :=
  let d := ((target : Int) - (current : Int)) % 7
  if d ≤ 0 then d + 7 else d

/-- Result of the time regex at line 212 of `app.py`. -/
structure TimeMatch where
  hour : Nat
  minute : Option Nat
  period : Option Str
deriving DecidableEq, Repr

/-- Alternatives of the meridiem group, in pattern order. -/
def meridiemAlts : List Str :=
  ["a.m.".data, "p.m.".data, "am".data, "pm".data, "a.m".data, "p.m".data]

/-- `re.search(r"at\s+(\d{1,2})(?::(\d{2}))?\s*(a\.m\.|p\.m\.|am|pm|a\.m|p\.m)?", ul)`
(the `re.IGNORECASE` flag is irrelevant because the code searches the
lowercased utterance). -/
def searchTime (ul : Str) : Option TimeMatch :=
  searchFrom
    (fun s =>
      (dropLead "at".data s).bind fun r1 =>
      (skipSpaces1 r1).bind fun r2 =>
      (read1or2Digits r2).bind fun hr =>
      let mr : Option Nat × Str :=
        match hr.2 with
        | ':' :: r3 =>
          match read2Digits r3 with
          | some (v, r4) => (some v, r4)
          | none => (none, ':' :: r3)
        | r3 => (none, r3)
      some ⟨hr.1, mr.1, matchAltList meridiemAlts (dropSpaces mr.2)⟩)
    ul

/-- Alternatives of the duration-unit group, in pattern order. -/
def durationUnits : List Str :=
  ["hour".data, "hr".data, "minute".data, "min".data, "minutes".data,
   "hrs".data, "hours".data]

/-- `re.search(r"for\s+(\d+)\s*(hour|hr|minute|min|minutes|hrs|hours)", ul)`,
returning (group 1 as a number, group 2). -/
def searchDuration (ul : Str) : Option (Nat × Str) :=
  searchFrom
    (fun s =>
      (dropLead "for".data s).bind fun r1 =>
      (skipSpaces1 r1).bind fun r2 =>
      (readDigits1 r2).bind fun nr =>
      (matchAltList durationUnits (dropSpaces nr.2)).map fun u => (nr.1, u))
    ul

/-- `re.search(r"T(\d{2}:\d{2}:\d{2})", s)`, returning group 1 (the
`HH:MM:SS` text). -/
def searchTTime (s : Str) : Option Str :=
  searchFrom
    (fun t =>
      match t with
      | 'T' :: a :: b :: ':' :: c :: d :: ':' :: e :: f :: _ =>
        if [a, b, c, d, e, f].all isDigitChar then some [a, b, ':', c, d, ':', e, f]
        else none
      | _ => none)
    s

/-! ### Email extraction

`re.findall(r'\b[A-Za-z0-9._%+-]+@[A-Za-z0-9.-]+\.[A-Z|a-z]{2,}\b', utterance)`
on the original-case utterance.  The character `|` inside the final class
is literal.  Backtracking happens only in the domain part (its class
contains `.`) and in the final class against the trailing `\b`; both are
embedded as explicit longest-first searches. -/

def isWordChar (c : Char) : Bool :=
  ('A' ≤ c && c ≤ 'Z') || ('a' ≤ c && c ≤ 'z') || ('0' ≤ c && c ≤ '9') || c = '_'

def isLocalChar (c : Char) : Bool :=
  ('A' ≤ c && c ≤ 'Z') || ('a' ≤ c && c ≤ 'z') || ('0' ≤ c && c ≤ '9') ||
    c = '.' || c = '_' || c = '%' || c = '+' || c = '-'

def isDomainChar (c : Char) : Bool :=
  ('A' ≤ c && c ≤ 'Z') || ('a' ≤ c && c ≤ 'z') || ('0' ≤ c && c ≤ '9') ||
    c = '.' || c = '-'

def isTldChar (c : Char) : Bool :=
  ('A' ≤ c && c ≤ 'Z') || ('a' ≤ c && c ≤ 'z') || c = '|'

/-- `\b` between the last matched character and what follows. -/
def boundaryAfter (lastc : Char) (rest : Str) : Bool :=
  match rest with
  | [] => isWordChar lastc
  | c :: _ => isWordChar lastc != isWordChar c

/-- Longest `[A-Z|a-z]{2,}` whose end satisfies `\b`, matched against
`rem`; `t` counts down from the greedy length. -/
def tldTry (rem : Str) : Nat → Option (Str × Str)
  | 0 => none
  | t + 1 =>
    if t + 1 < 2 then none
    else
      let cand := rem.take (t + 1)
      let rest := rem.drop (t + 1)
      match cand.getLast? with
      | some lastc =>
        if boundaryAfter lastc rest then some (cand, rest) else tldTry rem t
      | none => none

/-- Longest domain split `([A-Za-z0-9.-]+)\.<tld>`, domain length `k`
counting down from the greedy run. -/
def domainTry (afterAt : Str) : Nat → Option (Str × Str)
  | 0 => none
  | k + 1 =>
    let dom := afterAt.take (k + 1)
    if dom.all isDomainChar then
      match afterAt.drop (k + 1) with
      | '.' :: rem =>
        match tldTry rem (rem.takeWhile isTldChar).length with
        | some (tld, rest) => some (dom ++ '.' :: tld, rest)
        | none => domainTry afterAt k
      | _ => domainTry afterAt k
    else domainTry afterAt k

/-- Whole email pattern anchored at the current position, `prev` being
the character before it (for the leading `\b`). -/
def matchEmailAt (prev : Option Char) (s : Str) : Option (Str × Str) :=
  match s with
  | [] => none
  | c0 :: _ =>
    let bOK :=
      match prev with
      | none => isWordChar c0
      | some p => isWordChar c0 != isWordChar p
    if isLocalChar c0 && bOK then
      let lpart := s.takeWhile isLocalChar
      match s.dropWhile isLocalChar with
      | '@' :: afterAt =>
        let run := afterAt.takeWhile isDomainChar
        match domainTry afterAt run.length with
        | some (dompart, rest) => some (lpart ++ '@' :: dompart, rest)
        | none => none
      | _ => none
    else none

/-- `re.findall` scan: leftmost, non-overlapping, resuming after each
match. -/
def findEmailsAux : Nat → Option Char → Str → List Str
  | 0, _, _ => []
  | _, _, [] => []
  | fuel + 1, prev, c :: cs =>
    match matchEmailAt prev (c :: cs) with
    | some (em, rest) => em :: findEmailsAux fuel em.getLast? rest
    | none => findEmailsAux fuel (some c) cs

def findEmails (s : Str) : List Str := findEmailsAux (s.length + 1) none s

/-! ### Whitespace splitting and joining (Python `str.split()` /
`" ".join`). -/

def splitWsAux : Nat → Str → List Str
  | 0, _ => []
  | _, [] => []
  | fuel + 1, c :: cs =>
    if isSpaceChar c then splitWsAux fuel cs
    else
      ((c :: cs).takeWhile fun x => !isSpaceChar x) ::
        splitWsAux fuel ((c :: cs).dropWhile fun x => !isSpaceChar x)

def splitWs (s : Str) : List Str := splitWsAux (s.length + 1) s

def joinSpace : List Str → Str
  | [] => []
  | [w] => w
  | w :: ws => w ++ ' ' :: joinSpace ws

/-- Python `str.title()` on the single lowercase alphabetic words
(month/weekday names) it is applied to. -/
def titleWord : Str → Str
  | [] => []
  | c :: cs => c.toUpper :: cs

/-! ## The event draft and the resolver functions -/

/-- The JSON event dict flowing through `app.py`, restricted to the keys
the code reads or writes.  `none` stands for an absent key; a key bound
to JSON `null` behaves identically to an absent key on every embedded
path, so the two are conflated. -/
structure EventData where
  intent : Option Str := none
  title : Option Str := none
  start : Option Str := none
  end_ : Option Str := none
  duration_minutes : Option Nat := none
  attendees : Option (List Str) := none
  timezone : Option Str := none
deriving DecidableEq, Repr

/-- Python truthiness of an optional string (`""` and absent are falsy). -/
def truthyStr : Option Str → Bool
  | some s => !s.isEmpty
  | none => false

/-- Python truthiness of an optional number (`0` and absent are falsy). -/
def truthyNat : Option Nat → Bool
  | some n => n != 0
  | none => false

/-- `(time_match.group(3) or "").lower().replace('.', '')`. -/
def periodNorm (p : Option Str) : Str :=
  (toLowerStr (p.getD [])).filter fun c => c ≠ '.'

/-- Lines 218–227 of `app.py`: 24-hour normalization of the parsed hour
against the normalized meridiem text, then the evening heuristic for a
bare hour below 8. -/
def convertHour (hour0 : Nat) (period : Str) : Nat :=
  let hour1 :=
    if containsSub period "pm".data || containsSub period "p.m".data then
      if hour0 < 12 then hour0 + 12 else hour0
    else if (containsSub period "am".data || containsSub period "a.m".data) && hour0 = 12 then 0
    else hour0
  if period.isEmpty && hour1 < 8 then hour1 + 12 else hour1

/-- Lines 157–209 of `extract_event_fallback`: choose the event date
(and the date-rule-coupled title, starting from `"Meeting"`), in the
priority order absolute month-day, `next <weekday>`, `tomorrow`,
default `today`. -/
def selectEventDate (today : PyDateTime) (utterance_lower : Str) : PyDateTime × Str :=
  match findAbsoluteDate today.year utterance_lower month_patterns with
  | some (name, day, d) => (d, "Meeting on ".data ++ titleWord name ++ ' ' :: natToStr day)
  | none =>
    match searchNextDay utterance_lower with
    | some (day_name, target_weekday) =>
      (addDaysN today (days_until_next target_weekday (pyWeekday today)).toNat,
       titleWord day_name ++ ' ' :: "Meeting".data)
    | none =>
      if containsSub utterance_lower "tomorrow".data then (addDaysN today 1, "Meeting".data)
      else (today, "Meeting".data)

def stop_words : List Str :=
  ["schedule".data, "a".data, "meeting".data, "with".data, "on".data, "at".data, "for".data]

/-- Lines 211–238 of `app.py`: the time-of-day block, setting `start`,
default `end` and default `duration_minutes` when the time regex matches
and the `replace` call does not raise.  (The code also tests
`and event_date`; `event_date` is always a (truthy) datetime at this
point, so the test is vacuous.) -/
def fallbackTimeStage (event_date : PyDateTime) (ul : Str) (result1 : EventData) : EventData :=
  match searchTime ul with
  | some tm =>
    let minute := tm.minute.getD 0
    let period := periodNorm tm.period
    let hour := convertHour tm.hour period
    match replaceTime event_date hour minute with
    | some start_time =>
      { result1 with
        start := some (isoformat start_time),
        end_ := some (isoformat (addMinutes start_time 60)),
        duration_minutes := some 60 }
    | none => result1
  | none => result1

/-- Lines 240–256 of `app.py`: the duration block, rewriting `end` and
`duration_minutes` from the matched amount and unit when `start` was
set. -/
def fallbackDurationStage (ul : Str) (result2 : EventData) : EventData :=
  match searchDuration ul with
  | some (duration, unit) =>
    match result2.start with
    | some ss =>
      match fromisoformatSimple (replaceZ ss) with
      | some start_time =>
        if containsSub unit "hour".data || containsSub unit "hr".data then
          { result2 with
            end_ := some (isoformat (addMinutes start_time (duration * 60))),
            duration_minutes := some (duration * 60) }
        else
          { result2 with
            end_ := some (isoformat (addMinutes start_time duration)),
            duration_minutes := some duration }
      | none => result2
    | none => result2
  | none => result2

/-- Lines 258–261 of `app.py`: title from the first four non-stop-words
of the original-case utterance. -/
def fallbackTitleStage (utterance : Str) (result3 : EventData) : EventData :=
  let words := (splitWs utterance).filter fun w => !(stop_words.contains (toLowerStr w))
  if words.length > 0 then { result3 with title := some (joinSpace (words.take 4)) }
  else result3

/-- Lines 263–266 of `app.py`: attendee emails from the original-case
utterance. -/
def fallbackAttendeeStage (utterance : Str) (result4 : EventData) : EventData :=
  let email_matches := findEmails utterance
  if !email_matches.isEmpty then { result4 with attendees := some email_matches }
  else result4

/-- `extract_event_fallback(utterance)` (lines 149–268 of `app.py`).
`today` is the single `datetime.now()` read at line 154. -/
def extract_event_fallback (today : PyDateTime) (utterance : Str) : EventData :=
  let utterance_lower := toLowerStr utterance
  let base : EventData :=
    { intent := some "CreateEvent".data, title := some "Meeting".data,
      timezone := some "America/New_York".data }
  let sel := selectEventDate today utterance_lower
  let result1 := { base with title := some sel.2 }
  fallbackAttendeeStage utterance
    (fallbackTitleStage utterance
      (fallbackDurationStage utterance_lower
        (fallbackTimeStage sel.1 utterance_lower result1)))

/-- Lines 54–66: restamp the draft's `start` (and `end`) with the
overriding absolute date, keeping the time-of-day, provided the draft
has a truthy `start` carrying a `T`-time. -/
def overrideAbsolute (event_data : EventData) (corrected_date : PyDateTime) : EventData :=
  match event_data.start with
  | some start_str =>
    if !start_str.isEmpty then
      match searchTTime start_str with
      | some time_part =>
        let ed' := { event_data with start := some (fmtYMD corrected_date ++ 'T' :: time_part) }
        match event_data.end_ with
        | some end_str =>
          if !end_str.isEmpty then
            match searchTTime end_str with
            | some end_tp => { ed' with end_ := some (fmtYMD corrected_date ++ 'T' :: end_tp) }
            | none => ed'
          else ed'
        | none => ed'
      | none => event_data
    else event_data
  | none => event_data

/-- Lines 88–130: the corrected date of the relative/default block, in
priority order `next <weekday>`, `tomorrow`, the second month scan, the
tomorrow default.  `none` embeds the `ValueError` escaping from the
unguarded `datetime` construction at line 123. -/
def correctionDate (current_year : Nat) (today : PyDateTime) (utterance_lower : Str) :
    Option PyDateTime :=
  match searchNextDay utterance_lower with
  | some (_, target_weekday) =>
    some (addDaysN today (days_until_next target_weekday (pyWeekday today)).toNat)
  | none =>
    if containsSub utterance_lower "tomorrow".data then some (addDaysN today 1)
    else
      match findMonthDayRaw utterance_lower month_patterns with
      | some (month_num, day_num) => mkDate current_year month_num day_num
      | none => some (addDaysN today 1)

/-- Lines 132–142: apply the corrected date to `start` (and to `end`
when present with a `T`-time). -/
def applyCorrected (ed1 : EventData) (cd : PyDateTime) (time_part : Str) : EventData :=
  let ed2 := { ed1 with start := some (fmtYMD cd ++ 'T' :: time_part) }
  match ed1.end_ with
  | some end_str =>
    match searchTTime end_str with
    | some end_tp => { ed2 with end_ := some (fmtYMD cd ++ 'T' :: end_tp) }
    | none => ed2
  | none => ed2

/-- `validate_and_correct_dates(event_data, utterance)` (lines 33–147
of `app.py`).  The function reads the wall clock at three distinct call
sites — `datetime.now().year` at line 48, `datetime.now().year` at
line 80 and `datetime.now()` at line 88 — here surfaced as `now48`,
`now80` and `now88` (line 48 is in fact re-evaluated once per month
candidate, always inside the same call; a single parameter per site
captures the observable dependence).  Lines 43–72 are the override loop;
lines 78–143 the relative/default correction inside the blanket
`try/except` whose handler returns the draft as it stands. -/
def validate_and_correct_dates (now48 now80 now88 : PyDateTime)
    (event_data : EventData) (utterance : Str) : EventData :=
  let utterance_lower := toLowerStr utterance
  let ed1 :=
    match findAbsoluteDate now48.year utterance_lower month_patterns with
    | none => event_data
    | some (_, _, corrected_date) => overrideAbsolute event_data corrected_date
  match ed1.start with
  | none => ed1
  | some start_str =>
    let current_year := now80.year
    if !start_str.isEmpty && !containsSub start_str (natToStr current_year) then
      match searchTTime start_str with
      | none => ed1
      | some time_part =>
        match correctionDate current_year now88 utterance_lower with
        | none => ed1
        | some cd => applyCorrected ed1 cd time_part
    else ed1

/-- `compute_end(start_iso, dur)` from
`voice_calendar_orchestrator.py`; `none` embeds an exception escaping to
`handle_once`'s guard.  (Timezone-suffixed timestamps are outside the
string shapes produced by the embedded resolver and are not modelled.) -/
def compute_end (start_iso : Str) (dur : Nat) : Option Str :=
  match fromisoformatSimple (replaceZ start_iso) with
  | some dt => some (isoformat (addMinutes dt dur))
  | none =>
    match fromisoformatDateOnly (start_iso.takeWhile fun c => c ≠ 'T') with
    | some dt => some (isoformat (addMinutes dt dur))
    | none => none

/-- Observable outcome of `handle_once` after NLU extraction. -/
inductive Decision where
  | createEvent (start_s end_s : Str)
  | missingStartEnd
  | computeEndFailed
  | moveEvent
  | cancelEvent
  | unhandled
deriving DecidableEq, Repr

/-- The dispatch logic of `handle_once` (lines 97–151 of
`voice_calendar_orchestrator.py`) as a pure decision on the extracted
draft. -/
def handle_once_decision (nlu : EventData) : Decision :=
  let intent := nlu.intent.getD "Unknown".data
  if intent = "CreateEvent".data then
    let start := nlu.start
    let end0 := nlu.end_
    let dur := nlu.duration_minutes
    if !truthyStr end0 && truthyStr start && truthyNat dur then
      match compute_end (start.getD []) (dur.getD 0) with
      | some e =>
        if !truthyStr start || !truthyStr (some e) then Decision.missingStartEnd
        else Decision.createEvent (start.getD []) e
      | none => Decision.computeEndFailed
    else
      if !truthyStr start || !truthyStr end0 then Decision.missingStartEnd
      else Decision.createEvent (start.getD []) (end0.getD [])
  else if intent = "MoveEvent".data then Decision.moveEvent
  else if intent = "CancelEvent".data then Decision.cancelEvent
  else Decision.unhandled

/-! ## Calendar arithmetic lemmas -/

theorem daysInMonth_pos (y m : Nat) : 1 ≤ daysInMonth y m := by
  unfold daysInMonth
  split
  · split <;> omega
  · split <;> omega

theorem daysBeforeMonth_succ (y m : Nat) (h : 1 ≤ m) :
    daysBeforeMonth y (m + 1) = daysBeforeMonth y m + daysInMonth y m := by
  obtain ⟨n, rfl⟩ : ∃ n, m = n + 1 := ⟨m - 1, by omega⟩
  rfl

theorem daysBeforeMonth_twelve (y : Nat) :
    daysBeforeMonth y 12 = 306 + (if isLeap y then 29 else 28) := by
  by_cases h : isLeap y <;> simp [daysBeforeMonth, daysInMonth, h]

theorem dateToDays_nextDay (dt : PyDateTime) (h : DateOk dt) :
    dateToDays (nextDayDate dt) = dateToDays dt + 1 := by
  obtain ⟨hm1, hm2, hd1, hd2, hy⟩ := h
  unfold nextDayDate
  by_cases hlt : dt.day < daysInMonth dt.year dt.month
  · simp only [hlt, if_true]
    unfold dateToDays
    simp only
    have h100 : (dt.year - 1) / 100 ≤ 365 * (dt.year - 1) := by omega
    omega
  · simp only [hlt, if_false]
    by_cases hm : dt.month < 12
    · simp only [hm, if_true]
      unfold dateToDays
      simp only
      rw [daysBeforeMonth_succ dt.year dt.month hm1]
      have hpos := daysInMonth_pos dt.year dt.month
      have h100 : (dt.year - 1) / 100 ≤ 365 * (dt.year - 1) := by omega
      omega
    · simp only [hm, if_false]
      have hm12 : dt.month = 12 := by omega
      have hd : dt.day = 31 := by
        have h31 : daysInMonth dt.year 12 = 31 := by simp [daysInMonth]
        rw [hm12] at hd2 hlt
        omega
      unfold dateToDays
      simp only [hm12, hd] at *
      rw [daysBeforeMonth_twelve]
      have hdb0 : daysBeforeMonth (dt.year + 1) 1 = 0 := rfl
      rw [hdb0]
      have h4 : dt.year / 4 = (dt.year - 1) / 4 + (if dt.year % 4 = 0 then 1 else 0) := by
        split <;> omega
      have h100 : dt.year / 100 = (dt.year - 1) / 100 + (if dt.year % 100 = 0 then 1 else 0) := by
        split <;> omega
      have h400 : dt.year / 400 = (dt.year - 1) / 400 + (if dt.year % 400 = 0 then 1 else 0) := by
        split <;> omega
      have hle : (dt.year - 1) / 100 ≤ 365 * (dt.year - 1) := by omega
      have hle2 : dt.year / 100 ≤ 365 * (dt.year - 1) + 306 := by omega
      unfold isLeap
      split at h4 <;> split at h100 <;> split at h400 <;>
        simp_all [Bool.and_eq_true, Bool.or_eq_true, decide_eq_true_eq] <;> omega

theorem dateOk_nextDay (dt : PyDateTime) (h : DateOk dt) : DateOk (nextDayDate dt) := by
  obtain ⟨hm1, hm2, hd1, hd2, hy⟩ := h
  have hp1 := daysInMonth_pos dt.year (dt.month + 1)
  have hp2 := daysInMonth_pos (dt.year + 1) 1
  unfold nextDayDate DateOk
  by_cases hlt : dt.day < daysInMonth dt.year dt.month
  · simp only [hlt, if_true]
    omega
  · simp only [hlt, if_false]
    by_cases hm : dt.month < 12
    · simp only [hm, if_true]
      omega
    · simp only [hm, if_false]
      omega

theorem dateOk_addDaysN (dt : PyDateTime) (h : DateOk dt) (n : Nat) : DateOk (addDaysN dt n) := by
  induction n with
  | zero => exact h
  | succ k ih => exact dateOk_nextDay _ ih

theorem dateToDays_addDaysN (dt : PyDateTime) (h : DateOk dt) (n : Nat) :
    dateToDays (addDaysN dt n) = dateToDays dt + n := by
  induction n with
  | zero => rfl
  | succ k ih =>
    have := dateToDays_nextDay (addDaysN dt k) (dateOk_addDaysN dt h k)
    simp only [addDaysN]
    omega

theorem pyWeekday_addDaysN (dt : PyDateTime) (h : DateOk dt) (n : Nat) :
    pyWeekday (addDaysN dt n) = (pyWeekday dt + n) % 7 := by
  unfold pyWeekday
  rw [dateToDays_addDaysN dt h n]
  omega

theorem pyWeekday_lt (dt : PyDateTime) : pyWeekday dt < 7 := by
  unfold pyWeekday; omega

/-- `addDaysN` only moves the calendar fields. -/
theorem addDaysN_time_fields (dt : PyDateTime) (n : Nat) :
    (addDaysN dt n).hour = dt.hour ∧ (addDaysN dt n).minute = dt.minute ∧
      (addDaysN dt n).second = dt.second := by
  induction n with
  | zero => exact ⟨rfl, rfl, rfl⟩
  | succ k ih =>
    simp only [addDaysN]
    unfold nextDayDate
    split
    · exact ih
    · split <;> exact ih

/-! ## Formatting and parsing lemmas -/

theorem isDigitChar_digitChar : ∀ n < 10, isDigitChar (digitChar n) = true := by decide

theorem digitVal_digitChar : ∀ n < 10, digitVal (digitChar n) = n := by decide

theorem digitChar_ne_Z : ∀ n < 10, digitChar n ≠ 'Z' := by decide

theorem replaceZ_eq_self (s : Str) (h : ∀ c ∈ s, c ≠ 'Z') : replaceZ s = s := by
  induction s with
  | nil => rfl
  | cons c cs ih =>
    have hc : c ≠ 'Z' := h c (List.mem_cons_self c cs)
    have hcs := ih fun x hx => h x (List.mem_cons_of_mem c hx)
    unfold replaceZ at hcs ⊢
    rw [List.flatMap_cons, if_neg hc, hcs]
    rfl

theorem mem_isoformat (dt : PyDateTime) (h : DateOk dt) (h9 : dt.year ≤ 9999) (ht : TimeOk dt) :
    ∀ c ∈ isoformat dt, c = '-' ∨ c = ':' ∨ c = 'T' ∨ ∃ n, n < 10 ∧ c = digitChar n := by
  obtain ⟨hm1, hm2, hd1, hd2, hy⟩ := h
  obtain ⟨hh, hmi, hs⟩ := ht
  have hdm : daysInMonth dt.year dt.month ≤ 31 := by
    unfold daysInMonth; split
    · split <;> omega
    · split <;> omega
  intro c hc
  simp only [isoformat, fmtYMD, pad4, pad2, List.cons_append, List.nil_append,
    List.mem_cons, List.not_mem_nil, or_false] at hc
  rcases hc with rfl | rfl | rfl | rfl | rfl | rfl | rfl | rfl | rfl | rfl | rfl | rfl | rfl |
      rfl | rfl | rfl | rfl | rfl | rfl
  all_goals first
    | exact Or.inl rfl
    | exact Or.inr (Or.inl rfl)
    | exact Or.inr (Or.inr (Or.inl rfl))
    | exact Or.inr (Or.inr (Or.inr ⟨_, by omega, rfl⟩))

theorem replaceZ_isoformat (dt : PyDateTime) (h : DateOk dt) (h9 : dt.year ≤ 9999)
    (ht : TimeOk dt) : replaceZ (isoformat dt) = isoformat dt := by
  apply replaceZ_eq_self
  intro c hc
  rcases mem_isoformat dt h h9 ht c hc with rfl | rfl | rfl | ⟨n, hn, rfl⟩
  · decide
  · decide
  · decide
  · exact digitChar_ne_Z n hn

theorem fromisoformat_isoformat (dt : PyDateTime) (h : DateOk dt) (h9 : dt.year ≤ 9999)
    (ht : TimeOk dt) : fromisoformatSimple (isoformat dt) = some dt := by
  obtain ⟨hm1, hm2, hd1, hd2, hy⟩ := h
  obtain ⟨hh, hmi, hs⟩ := ht
  have hdm : daysInMonth dt.year dt.month ≤ 31 := by
    unfold daysInMonth; split
    · split <;> omega
    · split <;> omega
  simp only [isoformat, fmtYMD, pad4, pad2, List.cons_append, List.nil_append]
  simp only [fromisoformatSimple, List.all_cons, List.all_nil,
    isDigitChar_digitChar _ (by omega : dt.year / 100 / 10 < 10),
    isDigitChar_digitChar _ (by omega : dt.year / 100 % 10 < 10),
    isDigitChar_digitChar _ (by omega : dt.year % 100 / 10 < 10),
    isDigitChar_digitChar _ (by omega : dt.year % 100 % 10 < 10),
    isDigitChar_digitChar _ (by omega : dt.month / 10 < 10),
    isDigitChar_digitChar _ (by omega : dt.month % 10 < 10),
    isDigitChar_digitChar _ (by omega : dt.day / 10 < 10),
    isDigitChar_digitChar _ (by omega : dt.day % 10 < 10),
    isDigitChar_digitChar _ (by omega : dt.hour / 10 < 10),
    isDigitChar_digitChar _ (by omega : dt.hour % 10 < 10),
    isDigitChar_digitChar _ (by omega : dt.minute / 10 < 10),
    isDigitChar_digitChar _ (by omega : dt.minute % 10 < 10),
    isDigitChar_digitChar _ (by omega : dt.second / 10 < 10),
    isDigitChar_digitChar _ (by omega : dt.second % 10 < 10),
    digitVal_digitChar _ (by omega : dt.year / 100 / 10 < 10),
    digitVal_digitChar _ (by omega : dt.year / 100 % 10 < 10),
    digitVal_digitChar _ (by omega : dt.year % 100 / 10 < 10),
    digitVal_digitChar _ (by omega : dt.year % 100 % 10 < 10),
    digitVal_digitChar _ (by omega : dt.month / 10 < 10),
    digitVal_digitChar _ (by omega : dt.month % 10 < 10),
    digitVal_digitChar _ (by omega : dt.day / 10 < 10),
    digitVal_digitChar _ (by omega : dt.day % 10 < 10),
    digitVal_digitChar _ (by omega : dt.hour / 10 < 10),
    digitVal_digitChar _ (by omega : dt.hour % 10 < 10),
    digitVal_digitChar _ (by omega : dt.minute / 10 < 10),
    digitVal_digitChar _ (by omega : dt.minute % 10 < 10),
    digitVal_digitChar _ (by omega : dt.second / 10 < 10),
    digitVal_digitChar _ (by omega : dt.second % 10 < 10),
    Bool.and_self, if_true]
  have ey : dt.year / 100 / 10 * 1000 + dt.year / 100 % 10 * 100 +
      dt.year % 100 / 10 * 10 + dt.year % 100 % 10 = dt.year := by omega
  have em : dt.month / 10 * 10 + dt.month % 10 = dt.month := by omega
  have ed : dt.day / 10 * 10 + dt.day % 10 = dt.day := by omega
  have eh : dt.hour / 10 * 10 + dt.hour % 10 = dt.hour := by omega
  have emi : dt.minute / 10 * 10 + dt.minute % 10 = dt.minute := by omega
  have es : dt.second / 10 * 10 + dt.second % 10 = dt.second := by omega
  simp only [ey, em, ed, eh, emi, es]
  rw [if_pos ⟨hm1, hm2, hd1, hd2, hy, hh, hmi, hs⟩]

theorem natToStr_eq_pad4 (y : Nat) (h1 : 1000 ≤ y) (h2 : y ≤ 9999) : natToStr y = pad4 y := by
  obtain ⟨k, rfl⟩ : ∃ k, y = k + 1000 := ⟨y - 1000, by omega⟩
  unfold natToStr
  have s1 : k + 1000 + 1 = (k + 1000) + 1 := rfl
  rw [s1]
  unfold natToStrAux
  rw [if_neg (by omega)]
  have s2 : k + 1000 = (k + 999) + 1 := by omega
  rw [s2]
  unfold natToStrAux
  rw [if_neg (by omega)]
  have s3 : k + 999 = (k + 998) + 1 := by omega
  rw [s3]
  unfold natToStrAux
  rw [if_neg (by omega)]
  have s4 : k + 998 = (k + 997) + 1 := by omega
  rw [s4]
  unfold natToStrAux
  rw [if_pos (by omega)]
  have e1 : (k + 1000) / 10 / 10 / 10 = (k + 1000) / 100 / 10 := by omega
  have e2 : (k + 1000) / 10 / 10 % 10 = (k + 1000) / 100 % 10 := by omega
  have e3 : (k + 1000) / 10 % 10 = (k + 1000) % 100 / 10 := by omega
  have e4 : (k + 1000) % 10 = (k + 1000) % 100 % 10 := by omega
  simp only [pad4, pad2, e1, e2, e3, e4, List.cons_append, List.nil_append, List.append_assoc]

theorem dropLead_append (p s : Str) : dropLead p (p ++ s) = some s := by
  induction p with
  | nil => rfl
  | cons c cs ih => simp [dropLead, ih]

theorem containsSub_of_lead (s pat r : Str) (h : dropLead pat s = some r) :
    containsSub s pat = true := by
  unfold containsSub
  cases s with
  | nil => simp [searchFrom, h]
  | cons c cs => simp [searchFrom, h]

/-! ## Properties of the shared next-weekday offset -/

theorem days_until_next_props (t c : Nat) (_hc : c < 7) (htt : t < 7) :
    1 ≤ (days_until_next t c).toNat ∧ (days_until_next t c).toNat ≤ 7 ∧
      ((days_until_next t c).toNat + c) % 7 = t ∧
      (t = c → (days_until_next t c).toNat = 7) := by
  simp only [days_until_next]
  split <;> omega

/-! ## Helper lemmas about the embedded functions -/

theorem searchFrom_some {α : Type} (f : Str → Option α) (s : Str) (r : α)
    (h : searchFrom f s = some r) : ∃ t, f t = some r := by
  induction s with
  | nil => exact ⟨[], h⟩
  | cons c cs ih =>
    unfold searchFrom at h
    cases hf : f (c :: cs) with
    | some x =>
      rw [hf] at h
      exact ⟨c :: cs, by rw [hf]; exact h⟩
    | none =>
      rw [hf] at h
      exact ih h

theorem firstSome_mem {α β : Type} (l : List α) (f : α → Option β) (b : β)
    (h : firstSome l f = some b) : ∃ a ∈ l, f a = some b := by
  induction l with
  | nil => exact absurd h (by simp [firstSome])
  | cons a t ih =>
    unfold firstSome at h
    cases hf : f a with
    | some x =>
      rw [hf] at h
      simp only [] at h
      exact ⟨a, List.mem_cons_self a t, by rw [hf, h]⟩
    | none =>
      rw [hf] at h
      simp only [] at h
      obtain ⟨a', ha', hfa'⟩ := ih h
      exact ⟨a', List.mem_cons_of_mem a ha', hfa'⟩

theorem searchNextDay_target_lt (ul : Str) (nm : Str) (t : Nat)
    (h : searchNextDay ul = some (nm, t)) : t < 7 := by
  unfold searchNextDay at h
  obtain ⟨s, hs⟩ := searchFrom_some _ _ _ h
  rcases Option.bind_eq_some.mp hs with ⟨r1, _, h2⟩
  rcases Option.bind_eq_some.mp h2 with ⟨r2, _, h3⟩
  obtain ⟨a, ha, hfa⟩ := firstSome_mem _ _ _ h3
  rcases Option.map_eq_some'.mp hfa with ⟨x, _, heq⟩
  have hall : ∀ p ∈ day_mapping, p.2 < 7 := by decide
  have := hall a ha
  rw [heq] at this
  exact this

theorem findAbsoluteDate_spec (cy : Nat) (ul : Str) (l : List (Str × Nat)) (name : Str)
    (day : Nat) (d : PyDateTime) (h : findAbsoluteDate cy ul l = some (name, day, d)) :
    d.year = cy ∧ d.day = day ∧ d.hour = 0 ∧ d.minute = 0 ∧ d.second = 0 ∧ DateOk d ∧
      cy ≤ 9999 ∧ (name, d.month) ∈ l := by
  induction l with
  | nil => exact absurd h (by simp [findAbsoluteDate])
  | cons p rest ih =>
    have stepRest : findAbsoluteDate cy ul rest = some (name, day, d) →
        d.year = cy ∧ d.day = day ∧ d.hour = 0 ∧ d.minute = 0 ∧ d.second = 0 ∧ DateOk d ∧
          cy ≤ 9999 ∧ (name, d.month) ∈ p :: rest := by
      intro hr
      have := ih hr
      exact ⟨this.1, this.2.1, this.2.2.1, this.2.2.2.1, this.2.2.2.2.1,
        this.2.2.2.2.2.1, this.2.2.2.2.2.2.1, List.mem_cons_of_mem p this.2.2.2.2.2.2.2⟩
    unfold findAbsoluteDate at h
    by_cases hcs : containsSub ul p.1
    · rw [hcs] at h
      simp only [if_true] at h
      cases hsm : searchMonthDay p.1 ul with
      | some dd =>
        rw [hsm] at h
        simp only [] at h
        cases hmk : mkDate cy p.2 dd with
        | some dte =>
          rw [hmk] at h
          simp only [] at h
          injection h with h'
          obtain ⟨rfl, rfl, rfl⟩ : name = p.1 ∧ day = dd ∧ d = dte := by
            refine ⟨?_, ?_, ?_⟩ <;> cases h' <;> rfl
          unfold mkDate at hmk
          split at hmk
          · rename_i hcond
            injection hmk with hmk'
            subst hmk'
            exact ⟨rfl, rfl, rfl, rfl, rfl, ⟨hcond.1, hcond.2.1, hcond.2.2.1,
              hcond.2.2.2.1, hcond.2.2.2.2.1⟩, hcond.2.2.2.2.2, List.mem_cons_self p rest⟩
          · exact absurd hmk (by simp)
        | none =>
          rw [hmk] at h
          simp only [] at h
          exact stepRest h
      | none =>
        rw [hsm] at h
        simp only [] at h
        exact stepRest h
    · rw [Bool.not_eq_true] at hcs
      rw [hcs] at h
      simp only [Bool.false_eq_true, if_false] at h
      exact stepRest h

theorem applyCorrected_start (ed : EventData) (cd : PyDateTime) (tp : Str) :
    (applyCorrected ed cd tp).start = some (fmtYMD cd ++ 'T' :: tp) := by
  unfold applyCorrected
  cases ed.end_ with
  | none => rfl
  | some es =>
    dsimp only
    cases searchTTime es with
    | none => rfl
    | some etp => rfl

theorem overrideAbsolute_start (ed : EventData) (cd : PyDateTime) (ss tp : Str)
    (h2 : ed.start = some ss) (h3 : ss.isEmpty = false) (h5 : searchTTime ss = some tp) :
    (overrideAbsolute ed cd).start = some (fmtYMD cd ++ 'T' :: tp) := by
  simp only [overrideAbsolute, h2, h3, h5, Bool.not_false, if_true]
  cases ed.end_ with
  | none => rfl
  | some es =>
    dsimp only
    cases hes : es.isEmpty with
    | true => simp [hes]
    | false =>
      simp only [hes, Bool.not_false, if_true]
      cases searchTTime es with
      | none => rfl
      | some etp => rfl

theorem fmtYMD_isEmpty (cd : PyDateTime) : (fmtYMD cd ++ 'T' :: tp).isEmpty = false := rfl

theorem containsSub_fmtYMD_year (cd : PyDateTime) (tp : Str)
    (hy1 : 1000 ≤ cd.year) (hy2 : cd.year ≤ 9999) :
    containsSub (fmtYMD cd ++ 'T' :: tp) (natToStr cd.year) = true := by
  rw [natToStr_eq_pad4 cd.year hy1 hy2]
  unfold fmtYMD
  rw [List.append_assoc]
  exact containsSub_of_lead _ _ _ (dropLead_append _ _)

theorem V_eq_correction (now48 now80 now88 : PyDateTime) (ed : EventData) (utt ss tp : Str)
    (cd : PyDateTime)
    (h1 : findAbsoluteDate now48.year (toLowerStr utt) month_patterns = none)
    (h2 : ed.start = some ss)
    (h3 : ss.isEmpty = false)
    (h4 : containsSub ss (natToStr now80.year) = false)
    (h5 : searchTTime ss = some tp)
    (h6 : correctionDate now80.year now88 (toLowerStr utt) = some cd) :
    validate_and_correct_dates now48 now80 now88 ed utt = applyCorrected ed cd tp := by
  simp only [validate_and_correct_dates, h1, h2, h3, h4, h5, h6, Bool.not_false,
    Bool.and_self, if_true]

theorem V_correction_aborts (now48 now80 now88 : PyDateTime) (ed : EventData) (utt ss : Str)
    (h1 : findAbsoluteDate now48.year (toLowerStr utt) month_patterns = none)
    (h2 : ed.start = some ss)
    (h3 : ss.isEmpty = false)
    (h4 : containsSub ss (natToStr now80.year) = false)
    (h6 : correctionDate now80.year now88 (toLowerStr utt) = none) :
    validate_and_correct_dates now48 now80 now88 ed utt = ed := by
  simp only [validate_and_correct_dates, h1, h2, h3, h4, h6, Bool.not_false,
    Bool.and_self, if_true]
  cases searchTTime ss <;> rfl

theorem V_after_override (now48 now80 now88 : PyDateTime) (ed : EventData)
    (utt name ss tp : Str) (day : Nat) (cd : PyDateTime)
    (hfa : findAbsoluteDate now48.year (toLowerStr utt) month_patterns = some (name, day, cd))
    (h2 : ed.start = some ss) (h3 : ss.isEmpty = false) (h5 : searchTTime ss = some tp)
    (hyr : cd.year = now80.year) (hy1 : 1000 ≤ cd.year) :
    validate_and_correct_dates now48 now80 now88 ed utt = overrideAbsolute ed cd := by
  have hspec := findAbsoluteDate_spec _ _ _ _ _ _ hfa
  have hstart := overrideAbsolute_start ed cd ss tp h2 h3 h5
  have hy2 : cd.year ≤ 9999 := by
    rw [hspec.1]
    exact hspec.2.2.2.2.2.2.1
  have hcont : containsSub (fmtYMD cd ++ 'T' :: tp) (natToStr now80.year) = true := by
    rw [← hyr]
    exact containsSub_fmtYMD_year cd tp hy1 hy2
  simp only [validate_and_correct_dates, hfa, hstart, hcont, fmtYMD_isEmpty,
    Bool.not_true, Bool.and_false, Bool.false_and, if_false]
  rfl

theorem correctionDate_next (cy : Nat) (today : PyDateTime) (ul nm : Str) (t : Nat)
    (h : searchNextDay ul = some (nm, t)) :
    correctionDate cy today ul =
      some (addDaysN today (days_until_next t (pyWeekday today)).toNat) := by
  unfold correctionDate
  rw [h]

theorem correctionDate_tomorrow (cy : Nat) (today : PyDateTime) (ul : Str)
    (h : searchNextDay ul = none) (h2 : containsSub ul "tomorrow".data = true) :
    correctionDate cy today ul = some (addDaysN today 1) := by
  unfold correctionDate
  rw [h, h2]
  rfl

theorem correctionDate_default (cy : Nat) (today : PyDateTime) (ul : Str)
    (h : searchNextDay ul = none) (h2 : containsSub ul "tomorrow".data = false)
    (h3 : findMonthDayRaw ul month_patterns = none) :
    correctionDate cy today ul = some (addDaysN today 1) := by
  unfold correctionDate
  rw [h, h2, h3]
  rfl

theorem correctionDate_invalid_month (cy : Nat) (today : PyDateTime) (ul : Str)
    (mnum dnum : Nat)
    (h : searchNextDay ul = none) (h2 : containsSub ul "tomorrow".data = false)
    (h3 : findMonthDayRaw ul month_patterns = some (mnum, dnum))
    (h4 : mkDate cy mnum dnum = none) :
    correctionDate cy today ul = none := by
  simp only [correctionDate, h, h2, h3, h4, Bool.false_eq_true, if_false]

theorem fallbackTimeStage_none (ed : PyDateTime) (ul : Str) (r : EventData)
    (h : searchTime ul = none) : fallbackTimeStage ed ul r = r := by
  unfold fallbackTimeStage
  rw [h]

theorem fallbackTimeStage_some (ed : PyDateTime) (ul : Str) (r : EventData) (tm : TimeMatch)
    (st : PyDateTime) (h : searchTime ul = some tm)
    (hr : replaceTime ed (convertHour tm.hour (periodNorm tm.period)) (tm.minute.getD 0) = some st) :
    fallbackTimeStage ed ul r =
      { r with start := some (isoformat st), end_ := some (isoformat (addMinutes st 60)),
               duration_minutes := some 60 } := by
  unfold fallbackTimeStage
  rw [h]
  simp only [hr]

theorem fallbackTimeStage_invalid (ed : PyDateTime) (ul : Str) (r : EventData) (tm : TimeMatch)
    (h : searchTime ul = some tm)
    (hr : replaceTime ed (convertHour tm.hour (periodNorm tm.period)) (tm.minute.getD 0) = none) :
    fallbackTimeStage ed ul r = r := by
  unfold fallbackTimeStage
  rw [h]
  simp only [hr]

theorem fallbackDurationStage_none (ul : Str) (r : EventData)
    (h : searchDuration ul = none) : fallbackDurationStage ul r = r := by
  unfold fallbackDurationStage
  rw [h]

theorem fallbackDurationStage_no_start (ul : Str) (r : EventData)
    (h : r.start = none) : fallbackDurationStage ul r = r := by
  unfold fallbackDurationStage
  cases searchDuration ul with
  | none => rfl
  | some p =>
    obtain ⟨n, u⟩ := p
    dsimp only
    rw [h]

theorem fallbackDurationStage_some (ul : Str) (r : EventData) (n : Nat) (unit ss : Str)
    (st : PyDateTime) (h : searchDuration ul = some (n, unit)) (hs : r.start = some ss)
    (hp : fromisoformatSimple (replaceZ ss) = some st) :
    fallbackDurationStage ul r =
      (if containsSub unit "hour".data || containsSub unit "hr".data then
        { r with end_ := some (isoformat (addMinutes st (n * 60))),
                 duration_minutes := some (n * 60) }
      else
        { r with end_ := some (isoformat (addMinutes st n)),
                 duration_minutes := some n }) := by
  simp only [fallbackDurationStage, h, hs, hp]

theorem fallbackTitleStage_fields (u : Str) (r : EventData) :
    (fallbackTitleStage u r).intent = r.intent ∧
      (fallbackTitleStage u r).start = r.start ∧
      (fallbackTitleStage u r).end_ = r.end_ ∧
      (fallbackTitleStage u r).duration_minutes = r.duration_minutes ∧
      (fallbackTitleStage u r).attendees = r.attendees ∧
      (fallbackTitleStage u r).timezone = r.timezone := by
  unfold fallbackTitleStage
  dsimp only
  refine ⟨?_, ?_, ?_, ?_, ?_, ?_⟩ <;> (split <;> rfl)

theorem fallbackAttendeeStage_fields (u : Str) (r : EventData) :
    (fallbackAttendeeStage u r).intent = r.intent ∧
      (fallbackAttendeeStage u r).start = r.start ∧
      (fallbackAttendeeStage u r).end_ = r.end_ ∧
      (fallbackAttendeeStage u r).duration_minutes = r.duration_minutes ∧
      (fallbackAttendeeStage u r).title = r.title ∧
      (fallbackAttendeeStage u r).timezone = r.timezone := by
  unfold fallbackAttendeeStage
  dsimp only
  refine ⟨?_, ?_, ?_, ?_, ?_, ?_⟩ <;> (split <;> rfl)

theorem fallbackDurationStage_fields (ul : Str) (r : EventData) :
    (fallbackDurationStage ul r).intent = r.intent ∧
      (fallbackDurationStage ul r).start = r.start ∧
      (fallbackDurationStage ul r).title = r.title ∧
      (fallbackDurationStage ul r).attendees = r.attendees ∧
      (fallbackDurationStage ul r).timezone = r.timezone := by
  unfold fallbackDurationStage
  refine ⟨?_, ?_, ?_, ?_, ?_⟩ <;>
    (repeat' split) <;> rfl

theorem overrideAbsolute_fields (ed : EventData) (cd : PyDateTime) :
    (overrideAbsolute ed cd).intent = ed.intent ∧
      (overrideAbsolute ed cd).title = ed.title ∧
      (overrideAbsolute ed cd).duration_minutes = ed.duration_minutes ∧
      (overrideAbsolute ed cd).attendees = ed.attendees ∧
      (overrideAbsolute ed cd).timezone = ed.timezone := by
  unfold overrideAbsolute
  refine ⟨?_, ?_, ?_, ?_, ?_⟩ <;>
    (dsimp only; repeat' split) <;> rfl

theorem applyCorrected_fields (ed : EventData) (cd : PyDateTime) (tp : Str) :
    (applyCorrected ed cd tp).intent = ed.intent ∧
      (applyCorrected ed cd tp).title = ed.title ∧
      (applyCorrected ed cd tp).duration_minutes = ed.duration_minutes ∧
      (applyCorrected ed cd tp).attendees = ed.attendees ∧
      (applyCorrected ed cd tp).timezone = ed.timezone := by
  unfold applyCorrected
  refine ⟨?_, ?_, ?_, ?_, ?_⟩ <;>
    (dsimp only; repeat' split) <;> rfl

/-- `validate_and_correct_dates` only ever writes the `start` and `end`
keys: every other field of the draft passes through unchanged, and the
function is total (every caught-exception path returns the draft as it
stands). -/
theorem V_untouched_fields (now48 now80 now88 : PyDateTime) (ed : EventData) (utt : Str) :
    (validate_and_correct_dates now48 now80 now88 ed utt).intent = ed.intent ∧
      (validate_and_correct_dates now48 now80 now88 ed utt).title = ed.title ∧
      (validate_and_correct_dates now48 now80 now88 ed utt).duration_minutes =
        ed.duration_minutes ∧
      (validate_and_correct_dates now48 now80 now88 ed utt).attendees = ed.attendees ∧
      (validate_and_correct_dates now48 now80 now88 ed utt).timezone = ed.timezone := by
  have hov := overrideAbsolute_fields ed
  have hap := applyCorrected_fields
  unfold validate_and_correct_dates
  dsimp only
  cases hfa : findAbsoluteDate now48.year (toLowerStr utt) month_patterns with
  | none =>
    dsimp only
    cases hs : ed.start with
    | none => exact ⟨rfl, rfl, rfl, rfl, rfl⟩
    | some ss =>
      dsimp only
      split
      · cases htt : searchTTime ss with
        | none => exact ⟨rfl, rfl, rfl, rfl, rfl⟩
        | some tp =>
          dsimp only
          cases hcd : correctionDate now80.year now88 (toLowerStr utt) with
          | none => exact ⟨rfl, rfl, rfl, rfl, rfl⟩
          | some cd => exact hap ed cd tp
      · exact ⟨rfl, rfl, rfl, rfl, rfl⟩
  | some p =>
    obtain ⟨name, day, cd⟩ := p
    dsimp only
    cases hs : (overrideAbsolute ed cd).start with
    | none => exact hov cd
    | some ss =>
      dsimp only
      split
      · cases htt : searchTTime ss with
        | none => exact hov cd
        | some tp =>
          dsimp only
          cases hcd : correctionDate now80.year now88 (toLowerStr utt) with
          | none => exact hov cd
          | some cd2 =>
            have h1 := hap (overrideAbsolute ed cd) cd2 tp
            have h2 := hov cd
            exact ⟨h1.1.trans h2.1, h1.2.1.trans h2.2.1, h1.2.2.1.trans h2.2.2.1,
              h1.2.2.2.1.trans h2.2.2.2.1, h1.2.2.2.2.trans h2.2.2.2.2⟩
      · exact hov cd

/-- The bare-hour evening heuristic in `convertHour`, on the empty
normalized meridiem. -/
theorem convertHour_bare : ∀ h < 8, 1 ≤ h → convertHour h [] = h + 12 := by decide

theorem fallbackTitleStage_title (u : Str) (r : EventData) :
    (fallbackTitleStage u r).title =
      (if ((splitWs u).filter fun w => !(stop_words.contains (toLowerStr w))).length > 0 then
        some (joinSpace (((splitWs u).filter fun w =>
          !(stop_words.contains (toLowerStr w))).take 4))
      else r.title) := by
  unfold fallbackTitleStage
  dsimp only
  split <;> rfl

theorem fallbackAttendeeStage_attendees (u : Str) (r : EventData) :
    (fallbackAttendeeStage u r).attendees =
      (if (findEmails u).isEmpty then r.attendees else some (findEmails u)) := by
  unfold fallbackAttendeeStage
  dsimp only
  cases hem : (findEmails u).isEmpty with
  | true => simp [hem]
  | false => simp [hem]

/-! ## Claim theorems -/

/-- C1: for every utterance containing both a valid absolute month-day
phrase and a `tomorrow`/`next <weekday>` phrase, the resolved start date
is `(currentYear, month, day)` from the absolute phrase, not the date
derived from the relative phrase — in the fallback construction path
(the selected event date is the absolute date) and in the
draft-correction path (a draft `start` carrying a `T`-time is restamped
with the absolute date, and the relative block is skipped because the
restamped `start` now contains the current year). -/
theorem C1_absolute_date_precedence
    (now : PyDateTime) (utt name ss tp : Str) (day : Nat) (cd : PyDateTime) (ed : EventData)
    (hfa : findAbsoluteDate now.year (toLowerStr utt) month_patterns = some (name, day, cd))
    (_hrel : containsSub (toLowerStr utt) "tomorrow".data = true ∨
      (searchNextDay (toLowerStr utt)).isSome = true)
    (h2 : ed.start = some ss) (h3 : ss.isEmpty = false) (h5 : searchTTime ss = some tp)
    (hy1000 : 1000 ≤ now.year) :
    (selectEventDate now (toLowerStr utt)).1 = cd ∧
      cd.year = now.year ∧ cd.day = day ∧ (name, cd.month) ∈ month_patterns ∧
      cd.hour = 0 ∧ cd.minute = 0 ∧ cd.second = 0 ∧
      (validate_and_correct_dates now now now ed utt).start =
        some (fmtYMD cd ++ 'T' :: tp) := by
  have hspec := findAbsoluteDate_spec _ _ _ _ _ _ hfa
  have hcd1000 : 1000 ≤ cd.year := by rw [hspec.1]; exact hy1000
  have hVeq := V_after_override now now now ed utt name ss tp day cd hfa h2 h3 h5 hspec.1 hcd1000
  refine ⟨?_, hspec.1, hspec.2.1, hspec.2.2.2.2.2.2.2, hspec.2.2.1, hspec.2.2.2.1,
    hspec.2.2.2.2.1, ?_⟩
  · simp only [selectEventDate, hfa]
  · rw [hVeq]
    exact overrideAbsolute_start ed cd ss tp h2 h3 h5

/-- Witness for C1: `"lunch september 6 tomorrow"` on 2025-09-03 with a
stale draft start; the resolved start is 2025-09-06, not 2025-09-04. -/
theorem C1_absolute_date_precedence_witness :
    (selectEventDate ⟨2025, 9, 3, 10, 0, 0⟩ (toLowerStr "lunch september 6 tomorrow".data)).1 =
        ⟨2025, 9, 6, 0, 0, 0⟩ ∧
      (2025 : Nat) = 2025 ∧ (6 : Nat) = 6 ∧
      ("september".data, 9) ∈ month_patterns ∧
      (0 : Nat) = 0 ∧ (0 : Nat) = 0 ∧ (0 : Nat) = 0 ∧
      (validate_and_correct_dates ⟨2025, 9, 3, 10, 0, 0⟩ ⟨2025, 9, 3, 10, 0, 0⟩
          ⟨2025, 9, 3, 10, 0, 0⟩ { start := some "2023-01-01T09:00:00".data }
          "lunch september 6 tomorrow".data).start =
        some (fmtYMD ⟨2025, 9, 6, 0, 0, 0⟩ ++ 'T' :: "09:00:00".data) :=
  C1_absolute_date_precedence ⟨2025, 9, 3, 10, 0, 0⟩ "lunch september 6 tomorrow".data
    "september".data "2023-01-01T09:00:00".data "09:00:00".data 6 ⟨2025, 9, 6, 0, 0, 0⟩
    { start := some "2023-01-01T09:00:00".data }
    (by decide) (Or.inl (by decide)) (by decide) (by decide) (by decide) (by decide)

/-- C2: for every utterance containing `next <weekday>`, the shared
offset formula resolves to the next occurrence of the named weekday
strictly after the reference date — the offset is in 1..7, lands on the
named weekday, no earlier day after the reference does, and when the
reference day already is that weekday the offset is exactly 7 — and both
`extract_event_fallback` (via its date selection) and
`validate_and_correct_dates` (via the restamped `start`) use exactly
that date. -/
theorem C2_next_weekday_strictly_after
    (now : PyDateTime) (hok : DateOk now)
    (utt nm ss tp : Str) (target : Nat) (ed : EventData)
    (hnext : searchNextDay (toLowerStr utt) = some (nm, target))
    (hanone : findAbsoluteDate now.year (toLowerStr utt) month_patterns = none)
    (h2 : ed.start = some ss) (h3 : ss.isEmpty = false)
    (h4 : containsSub ss (natToStr now.year) = false)
    (h5 : searchTTime ss = some tp) :
    1 ≤ (days_until_next target (pyWeekday now)).toNat ∧
      (days_until_next target (pyWeekday now)).toNat ≤ 7 ∧
      pyWeekday (addDaysN now (days_until_next target (pyWeekday now)).toNat) = target ∧
      (∀ k, 1 ≤ k → k < (days_until_next target (pyWeekday now)).toNat →
        pyWeekday (addDaysN now k) ≠ target) ∧
      (pyWeekday now = target → (days_until_next target (pyWeekday now)).toNat = 7) ∧
      (selectEventDate now (toLowerStr utt)).1 =
        addDaysN now (days_until_next target (pyWeekday now)).toNat ∧
      (validate_and_correct_dates now now now ed utt).start =
        some (fmtYMD (addDaysN now (days_until_next target (pyWeekday now)).toNat) ++
          'T' :: tp) := by
  have htlt : target < 7 := searchNextDay_target_lt _ _ _ hnext
  have hp := days_until_next_props target (pyWeekday now) (pyWeekday_lt now) htlt
  obtain ⟨hp1, hp2, hp3, hp4⟩ := hp
  have hsh : ∀ k, pyWeekday (addDaysN now k) = (pyWeekday now + k) % 7 :=
    fun k => pyWeekday_addDaysN now hok k
  have hwlt := pyWeekday_lt now
  refine ⟨hp1, hp2, ?_, ?_, fun hsame => hp4 hsame.symm, ?_, ?_⟩
  · rw [hsh]
    omega
  · intro k hk1 hk2
    rw [hsh]
    omega
  · simp only [selectEventDate, hanone, hnext]
  · rw [V_eq_correction now now now ed utt ss tp _ hanone h2 h3 h4 h5
      (correctionDate_next now.year now (toLowerStr utt) nm target hnext)]
    exact applyCorrected_start ed _ tp

/-- Witness for C2: `"call next monday ok"` evaluated on Monday
2025-09-01 resolves to Monday 2025-09-08, seven days later. -/
theorem C2_next_weekday_strictly_after_witness :
    1 ≤ (days_until_next 0 (pyWeekday ⟨2025, 9, 1, 8, 0, 0⟩)).toNat ∧
      (days_until_next 0 (pyWeekday ⟨2025, 9, 1, 8, 0, 0⟩)).toNat ≤ 7 ∧
      pyWeekday (addDaysN ⟨2025, 9, 1, 8, 0, 0⟩
          (days_until_next 0 (pyWeekday ⟨2025, 9, 1, 8, 0, 0⟩)).toNat) = 0 ∧
      (∀ k, 1 ≤ k → k < (days_until_next 0 (pyWeekday ⟨2025, 9, 1, 8, 0, 0⟩)).toNat →
        pyWeekday (addDaysN ⟨2025, 9, 1, 8, 0, 0⟩ k) ≠ 0) ∧
      (pyWeekday ⟨2025, 9, 1, 8, 0, 0⟩ = 0 →
        (days_until_next 0 (pyWeekday ⟨2025, 9, 1, 8, 0, 0⟩)).toNat = 7) ∧
      (selectEventDate ⟨2025, 9, 1, 8, 0, 0⟩ (toLowerStr "call next monday ok".data)).1 =
        addDaysN ⟨2025, 9, 1, 8, 0, 0⟩
          (days_until_next 0 (pyWeekday ⟨2025, 9, 1, 8, 0, 0⟩)).toNat ∧
      (validate_and_correct_dates ⟨2025, 9, 1, 8, 0, 0⟩ ⟨2025, 9, 1, 8, 0, 0⟩
          ⟨2025, 9, 1, 8, 0, 0⟩ { start := some "2023-01-02T09:00:00".data }
          "call next monday ok".data).start =
        some (fmtYMD (addDaysN ⟨2025, 9, 1, 8, 0, 0⟩
          (days_until_next 0 (pyWeekday ⟨2025, 9, 1, 8, 0, 0⟩)).toNat) ++
          'T' :: "09:00:00".data) :=
  C2_next_weekday_strictly_after ⟨2025, 9, 1, 8, 0, 0⟩ (by decide)
    "call next monday ok".data "monday".data "2023-01-02T09:00:00".data "09:00:00".data 0
    { start := some "2023-01-02T09:00:00".data }
    (by decide) (by decide) (by decide) (by decide) (by decide) (by decide)

/-- C3 counterexample: on the no-date-cue utterance `"hello at 9am"` with
reference moment 2025-06-05, `extract_event_fallback` dates the event on
the reference day itself (2025-06-05), not on reference + 1 day
(2025-06-06) as the claim asserts for the fallback path. -/
theorem C3_counterexample :
    (extract_event_fallback ⟨2025, 6, 5, 14, 30, 0⟩ "hello at 9am".data).start =
        some "2025-06-05T09:00:00".data ∧
      (extract_event_fallback ⟨2025, 6, 5, 14, 30, 0⟩ "hello at 9am".data).start ≠
        some "2025-06-06T09:00:00".data := by
  constructor
  · decide
  · decide

/-- C3 (amended): when no date phrase is detected,
`validate_and_correct_dates` re-dates a `start` lacking the current year
to reference + 1 day while preserving its time-of-day, but
`extract_event_fallback` defaults the event date to the reference day
itself (today), not to reference + 1 day. -/
theorem C3_default_dates
    (now : PyDateTime) (utt ss tp : Str) (ed : EventData)
    (hn : searchNextDay (toLowerStr utt) = none)
    (ht : containsSub (toLowerStr utt) "tomorrow".data = false)
    (hm : findMonthDayRaw (toLowerStr utt) month_patterns = none)
    (hma : findAbsoluteDate now.year (toLowerStr utt) month_patterns = none)
    (h2 : ed.start = some ss) (h3 : ss.isEmpty = false)
    (h4 : containsSub ss (natToStr now.year) = false)
    (h5 : searchTTime ss = some tp) :
    (validate_and_correct_dates now now now ed utt).start =
        some (fmtYMD (addDaysN now 1) ++ 'T' :: tp) ∧
      (selectEventDate now (toLowerStr utt)).1 = now := by
  constructor
  · rw [V_eq_correction now now now ed utt ss tp _ hma h2 h3 h4 h5
      (correctionDate_default now.year now (toLowerStr utt) hn ht hm)]
    exact applyCorrected_start ed _ tp
  · simp only [selectEventDate, hma, hn, ht, Bool.false_eq_true, if_false]

/-- Witness for the amended C3: `"hello at 9am"`, reference 2025-06-05, a
stale draft start; the corrected draft start is 2025-06-06, the fallback
date is 2025-06-05. -/
theorem C3_default_dates_witness :
    (validate_and_correct_dates ⟨2025, 6, 5, 14, 30, 0⟩ ⟨2025, 6, 5, 14, 30, 0⟩
          ⟨2025, 6, 5, 14, 30, 0⟩ { start := some "2023-01-01T08:30:00".data }
          "hello at 9am".data).start =
        some (fmtYMD (addDaysN ⟨2025, 6, 5, 14, 30, 0⟩ 1) ++ 'T' :: "08:30:00".data) ∧
      (selectEventDate ⟨2025, 6, 5, 14, 30, 0⟩ (toLowerStr "hello at 9am".data)).1 =
        ⟨2025, 6, 5, 14, 30, 0⟩ :=
  C3_default_dates ⟨2025, 6, 5, 14, 30, 0⟩ "hello at 9am".data "2023-01-01T08:30:00".data
    "08:30:00".data { start := some "2023-01-01T08:30:00".data }
    (by decide) (by decide) (by decide) (by decide) (by decide) (by decide) (by decide)
    (by decide)

/-- C4: a time phrase with no meridiem marker and parsed hour in 1–7 is
normalized by adding 12 (evening heuristic), and the fallback start
carries that normalized hour. -/
theorem C4_evening_heuristic
    (now : PyDateTime) (utt : Str) (tm : TimeMatch)
    (h : searchTime (toLowerStr utt) = some tm)
    (hper : tm.period = none)
    (hh1 : 1 ≤ tm.hour) (hh7 : tm.hour ≤ 7)
    (hmin : tm.minute.getD 0 ≤ 59) :
    convertHour tm.hour (periodNorm tm.period) = tm.hour + 12 ∧
      (extract_event_fallback now utt).start =
        some (isoformat { (selectEventDate now (toLowerStr utt)).1 with
          hour := tm.hour + 12, minute := tm.minute.getD 0, second := 0 }) := by
  have hpn : periodNorm tm.period = [] := by rw [hper]; rfl
  have hch : convertHour tm.hour (periodNorm tm.period) = tm.hour + 12 := by
    rw [hpn]
    exact convertHour_bare tm.hour (by omega) hh1
  refine ⟨hch, ?_⟩
  have hrep : replaceTime (selectEventDate now (toLowerStr utt)).1
      (convertHour tm.hour (periodNorm tm.period)) (tm.minute.getD 0) =
      some { (selectEventDate now (toLowerStr utt)).1 with
        hour := tm.hour + 12, minute := tm.minute.getD 0, second := 0 } := by
    rw [hch]
    unfold replaceTime
    rw [if_pos ⟨by omega, hmin⟩]
  unfold extract_event_fallback
  dsimp only
  rw [fallbackTimeStage_some _ _ _ tm _ h hrep]
  rw [(fallbackAttendeeStage_fields utt _).2.1, (fallbackTitleStage_fields utt _).2.1,
    (fallbackDurationStage_fields (toLowerStr utt) _).2.1]

/-- Witness for C4: `"at 5"` with no meridiem resolves to hour 17. -/
theorem C4_evening_heuristic_witness :
    convertHour 5 (periodNorm none) = 5 + 12 ∧
      (extract_event_fallback ⟨2025, 6, 5, 14, 30, 0⟩ "at 5".data).start =
        some (isoformat { (selectEventDate ⟨2025, 6, 5, 14, 30, 0⟩
          (toLowerStr "at 5".data)).1 with hour := 5 + 12, minute := 0, second := 0 }) := by
  have h := C4_evening_heuristic ⟨2025, 6, 5, 14, 30, 0⟩ "at 5".data ⟨5, none, none⟩
    (by decide) (by decide) (by decide) (by decide) (by decide)
  exact h

/-- C6: when a time-of-day is resolved and no duration phrase matches
(the fallback never carries an explicit `end` at this point), the
resolver sets `duration_minutes = 60` and `end = start + 60` minutes. -/
theorem C6_default_sixty_minutes
    (now : PyDateTime) (utt : Str) (tm : TimeMatch) (st : PyDateTime)
    (h : searchTime (toLowerStr utt) = some tm)
    (hrep : replaceTime (selectEventDate now (toLowerStr utt)).1
        (convertHour tm.hour (periodNorm tm.period)) (tm.minute.getD 0) = some st)
    (hdur : searchDuration (toLowerStr utt) = none) :
    (extract_event_fallback now utt).start = some (isoformat st) ∧
      (extract_event_fallback now utt).end_ = some (isoformat (addMinutes st 60)) ∧
      (extract_event_fallback now utt).duration_minutes = some 60 := by
  unfold extract_event_fallback
  dsimp only
  rw [fallbackTimeStage_some _ _ _ tm st h hrep]
  rw [fallbackDurationStage_none _ _ hdur]
  exact ⟨((fallbackAttendeeStage_fields utt _).2.1).trans
      ((fallbackTitleStage_fields utt _).2.1),
    ((fallbackAttendeeStage_fields utt _).2.2.1).trans
      ((fallbackTitleStage_fields utt _).2.2.1),
    ((fallbackAttendeeStage_fields utt _).2.2.2.1).trans
      ((fallbackTitleStage_fields utt _).2.2.2.1)⟩

/-- Witness for C6: `"meeting september 6th at 9am"` in reference year
2025 resolves to 2025-09-06 09:00 with the default 60-minute duration. -/
theorem C6_default_sixty_minutes_witness :
    (extract_event_fallback ⟨2025, 3, 1, 8, 30, 0⟩
        "meeting september 6th at 9am".data).start =
        some (isoformat ⟨2025, 9, 6, 9, 0, 0⟩) ∧
      (extract_event_fallback ⟨2025, 3, 1, 8, 30, 0⟩
        "meeting september 6th at 9am".data).end_ =
        some (isoformat (addMinutes ⟨2025, 9, 6, 9, 0, 0⟩ 60)) ∧
      (extract_event_fallback ⟨2025, 3, 1, 8, 30, 0⟩
        "meeting september 6th at 9am".data).duration_minutes = some 60 :=
  C6_default_sixty_minutes ⟨2025, 3, 1, 8, 30, 0⟩ "meeting september 6th at 9am".data
    ⟨9, none, some "am".data⟩ ⟨2025, 9, 6, 9, 0, 0⟩ (by decide) (by decide) (by decide)

/-- C5: when a duration phrase matches and a start was resolved, the
resolver keeps `end − start` equal to `duration_minutes`: an
hour-family unit yields `end = start + 60·N` minutes with
`duration_minutes = 60·N`, a minute-family unit yields
`end = start + N` minutes with `duration_minutes = N`; and the duration
phrase is applied only when a start is resolved — with no time match the
result carries no `start`, `end` or `duration_minutes` at all. -/
theorem C5_duration_consistency
    (now : PyDateTime) (utt : Str) (tm : TimeMatch) (st : PyDateTime) (n : Nat) (unit : Str)
    (h : searchTime (toLowerStr utt) = some tm)
    (hrep : replaceTime (selectEventDate now (toLowerStr utt)).1
        (convertHour tm.hour (periodNorm tm.period)) (tm.minute.getD 0) = some st)
    (hdur : searchDuration (toLowerStr utt) = some (n, unit))
    (hok : DateOk st) (h9 : st.year ≤ 9999) (ht : TimeOk st) :
    ((extract_event_fallback now utt).start = some (isoformat st) ∧
      (extract_event_fallback now utt).duration_minutes =
        some (if containsSub unit "hour".data || containsSub unit "hr".data then n * 60 else n) ∧
      (extract_event_fallback now utt).end_ =
        some (isoformat (addMinutes st
          (if containsSub unit "hour".data || containsSub unit "hr".data then n * 60 else n)))) ∧
      (∀ utt2 : Str, searchTime (toLowerStr utt2) = none →
        (extract_event_fallback now utt2).start = none ∧
        (extract_event_fallback now utt2).end_ = none ∧
        (extract_event_fallback now utt2).duration_minutes = none) := by
  constructor
  · have hparse : fromisoformatSimple (replaceZ (isoformat st)) = some st := by
      rw [replaceZ_isoformat st hok h9 ht]
      exact fromisoformat_isoformat st hok h9 ht
    unfold extract_event_fallback
    dsimp only
    rw [fallbackTimeStage_some _ _ _ tm st h hrep]
    rw [fallbackDurationStage_some (toLowerStr utt) _ n unit (isoformat st) st hdur rfl hparse]
    cases hu : containsSub unit "hour".data || containsSub unit "hr".data with
    | true =>
      simp only [hu, eq_self_iff_true, if_true]
      exact ⟨((fallbackAttendeeStage_fields utt _).2.1).trans
          ((fallbackTitleStage_fields utt _).2.1),
        ((fallbackAttendeeStage_fields utt _).2.2.2.1).trans
          ((fallbackTitleStage_fields utt _).2.2.2.1),
        ((fallbackAttendeeStage_fields utt _).2.2.1).trans
          ((fallbackTitleStage_fields utt _).2.2.1)⟩
    | false =>
      simp only [hu, Bool.false_eq_true, if_false]
      exact ⟨((fallbackAttendeeStage_fields utt _).2.1).trans
          ((fallbackTitleStage_fields utt _).2.1),
        ((fallbackAttendeeStage_fields utt _).2.2.2.1).trans
          ((fallbackTitleStage_fields utt _).2.2.2.1),
        ((fallbackAttendeeStage_fields utt _).2.2.1).trans
          ((fallbackTitleStage_fields utt _).2.2.1)⟩
  · intro utt2 hno
    unfold extract_event_fallback
    dsimp only
    rw [fallbackTimeStage_none _ _ _ hno]
    rw [fallbackDurationStage_no_start (toLowerStr utt2) _ rfl]
    exact ⟨((fallbackAttendeeStage_fields utt2 _).2.1).trans
        ((fallbackTitleStage_fields utt2 _).2.1),
      ((fallbackAttendeeStage_fields utt2 _).2.2.1).trans
        ((fallbackTitleStage_fields utt2 _).2.2.1),
      ((fallbackAttendeeStage_fields utt2 _).2.2.2.1).trans
        ((fallbackTitleStage_fields utt2 _).2.2.2.1)⟩

/-- Witness for C5: `"sync next friday at 3pm for 2 hours"` on Wednesday
2025-09-03: start Friday 2025-09-05 15:00, end 17:00, 120 minutes; and
the no-time utterance `"sync next friday"` yields no start/end/duration. -/
theorem C5_duration_consistency_witness :
    ((extract_event_fallback ⟨2025, 9, 3, 10, 0, 0⟩
          "sync next friday at 3pm for 2 hours".data).start =
        some (isoformat ⟨2025, 9, 5, 15, 0, 0⟩) ∧
      (extract_event_fallback ⟨2025, 9, 3, 10, 0, 0⟩
          "sync next friday at 3pm for 2 hours".data).duration_minutes =
        some (if containsSub "hour".data "hour".data || containsSub "hour".data "hr".data
          then 2 * 60 else 2) ∧
      (extract_event_fallback ⟨2025, 9, 3, 10, 0, 0⟩
          "sync next friday at 3pm for 2 hours".data).end_ =
        some (isoformat (addMinutes ⟨2025, 9, 5, 15, 0, 0⟩
          (if containsSub "hour".data "hour".data || containsSub "hour".data "hr".data
            then 2 * 60 else 2)))) ∧
      (∀ utt2 : Str, searchTime (toLowerStr utt2) = none →
        (extract_event_fallback ⟨2025, 9, 3, 10, 0, 0⟩ utt2).start = none ∧
        (extract_event_fallback ⟨2025, 9, 3, 10, 0, 0⟩ utt2).end_ = none ∧
        (extract_event_fallback ⟨2025, 9, 3, 10, 0, 0⟩ utt2).duration_minutes = none) :=
  C5_duration_consistency ⟨2025, 9, 3, 10, 0, 0⟩ "sync next friday at 3pm for 2 hours".data
    ⟨3, none, some "pm".data⟩ ⟨2025, 9, 5, 15, 0, 0⟩ 2 "hour".data
    (by decide) (by decide) (by decide) (by decide) (by decide) (by decide)

/-- C7 counterexample: with utterance `"party february 30"` (invalid
day 30 of February, no relative cue), reference 2025-06-05, and a draft
start lacking the current year, `validate_and_correct_dates` leaves the
draft completely unchanged — it does not fall through to the default
(tomorrow) correction the claim asserts: the internally raised
`ValueError` at the unguarded `datetime` construction aborts the whole
correction block. -/
theorem C7_counterexample :
    validate_and_correct_dates ⟨2025, 6, 5, 10, 0, 0⟩ ⟨2025, 6, 5, 10, 0, 0⟩
        ⟨2025, 6, 5, 10, 0, 0⟩ { start := some "2023-02-15T09:00:00".data }
        "party february 30".data =
      { start := some "2023-02-15T09:00:00".data } ∧
    (validate_and_correct_dates ⟨2025, 6, 5, 10, 0, 0⟩ ⟨2025, 6, 5, 10, 0, 0⟩
        ⟨2025, 6, 5, 10, 0, 0⟩ { start := some "2023-02-15T09:00:00".data }
        "party february 30".data).start ≠
      some (fmtYMD (addDaysN ⟨2025, 6, 5, 10, 0, 0⟩ 1) ++ 'T' :: "09:00:00".data) := by
  constructor
  · decide
  · decide

/-- C7 (amended): an invalid month-day raises no exception to the
caller in either path.  In the fallback path (and in the override loop)
the invalid date is treated as no absolute-date match and resolution
falls through to the weaker rules.  In the correction path the weaker
relative rules are checked first, so `tomorrow`/`next <weekday>` still
apply; but when no relative cue is present, the re-dating block's
unguarded `datetime` construction aborts the correction internally
(caught by the blanket handler) and `start` is left unmodified instead
of falling through to the tomorrow default. -/
theorem C7_invalid_date_handling :
    (∀ y m d : Nat, daysInMonth y m < d → mkDate y m d = none) ∧
      (∀ (today : PyDateTime) (ul : Str),
        findAbsoluteDate today.year ul month_patterns = none →
        searchNextDay ul = none →
        containsSub ul "tomorrow".data = true →
        (selectEventDate today ul).1 = addDaysN today 1) ∧
      (∀ (now : PyDateTime) (utt ss tp : Str) (ed : EventData),
        findAbsoluteDate now.year (toLowerStr utt) month_patterns = none →
        searchNextDay (toLowerStr utt) = none →
        containsSub (toLowerStr utt) "tomorrow".data = true →
        ed.start = some ss → ss.isEmpty = false →
        containsSub ss (natToStr now.year) = false →
        searchTTime ss = some tp →
        (validate_and_correct_dates now now now ed utt).start =
          some (fmtYMD (addDaysN now 1) ++ 'T' :: tp)) ∧
      (∀ (now : PyDateTime) (utt ss : Str) (ed : EventData) (mnum dnum : Nat),
        findAbsoluteDate now.year (toLowerStr utt) month_patterns = none →
        searchNextDay (toLowerStr utt) = none →
        containsSub (toLowerStr utt) "tomorrow".data = false →
        findMonthDayRaw (toLowerStr utt) month_patterns = some (mnum, dnum) →
        mkDate now.year mnum dnum = none →
        ed.start = some ss → ss.isEmpty = false →
        containsSub ss (natToStr now.year) = false →
        validate_and_correct_dates now now now ed utt = ed) := by
  refine ⟨?_, ?_, ?_, ?_⟩
  · intro y m d hd
    unfold mkDate
    rw [if_neg]
    intro hc
    omega
  · intro today ul h1 h2 h3
    simp only [selectEventDate, h1, h2, h3, if_true]
  · intro now utt ss tp ed h1 h2 h3 h4 h5 h6 h7
    rw [V_eq_correction now now now ed utt ss tp _ h1 h4 h5 h6 h7
      (correctionDate_tomorrow now.year now (toLowerStr utt) h2 h3)]
    exact applyCorrected_start ed _ tp
  · intro now utt ss ed mnum dnum h1 h2 h3 hm hmk h4 h5 h6
    exact V_correction_aborts now now now ed utt ss h1 h4 h5 h6
      (correctionDate_invalid_month now.year now (toLowerStr utt) mnum dnum h2 h3 hm hmk)

/-- Witness for the amended C7, exercising all four parts at concrete
inputs: day 30 of February 2025, the utterances
`"party february 30 tomorrow"` and `"party february 30"`, and reference
2025-06-05. -/
theorem C7_invalid_date_handling_witness :
    mkDate 2025 2 30 = none ∧
      (selectEventDate ⟨2025, 6, 5, 10, 0, 0⟩ "party february 30 tomorrow".data).1 =
        addDaysN ⟨2025, 6, 5, 10, 0, 0⟩ 1 ∧
      (validate_and_correct_dates ⟨2025, 6, 5, 10, 0, 0⟩ ⟨2025, 6, 5, 10, 0, 0⟩
          ⟨2025, 6, 5, 10, 0, 0⟩ { start := some "2023-02-15T09:00:00".data }
          "party february 30 tomorrow".data).start =
        some (fmtYMD (addDaysN ⟨2025, 6, 5, 10, 0, 0⟩ 1) ++ 'T' :: "09:00:00".data) ∧
      validate_and_correct_dates ⟨2025, 6, 5, 10, 0, 0⟩ ⟨2025, 6, 5, 10, 0, 0⟩
          ⟨2025, 6, 5, 10, 0, 0⟩ { start := some "2023-02-15T09:00:00".data }
          "party february 30".data =
        { start := some "2023-02-15T09:00:00".data } :=
  ⟨C7_invalid_date_handling.1 2025 2 30 (by decide),
    C7_invalid_date_handling.2.1 ⟨2025, 6, 5, 10, 0, 0⟩ "party february 30 tomorrow".data
      (by decide) (by decide) (by decide),
    C7_invalid_date_handling.2.2.1 ⟨2025, 6, 5, 10, 0, 0⟩ "party february 30 tomorrow".data
      "2023-02-15T09:00:00".data "09:00:00".data { start := some "2023-02-15T09:00:00".data }
      (by decide) (by decide) (by decide) (by decide) (by decide) (by decide) (by decide),
    C7_invalid_date_handling.2.2.2 ⟨2025, 6, 5, 10, 0, 0⟩ "party february 30".data
      "2023-02-15T09:00:00".data { start := some "2023-02-15T09:00:00".data } 2 30
      (by decide) (by decide) (by decide) (by decide) (by decide) (by decide) (by decide)
      (by decide)⟩

/-- C8: the resolver never raises to its caller.  In the fallback, an
hour or minute that is out of range after normalization (the embedded
`replace` returning `none`) is a soft failure: `start`, `end` and
`duration_minutes` stay unset while intent, timezone, title and
attendees are still processed as usual.  And
`validate_and_correct_dates` always returns a draft, touching only the
`start`/`end` fields on every path (exception paths included). -/
theorem C8_soft_failure_no_raise
    (now : PyDateTime) (utt : Str) (tm : TimeMatch)
    (h : searchTime (toLowerStr utt) = some tm)
    (hbad : replaceTime (selectEventDate now (toLowerStr utt)).1
        (convertHour tm.hour (periodNorm tm.period)) (tm.minute.getD 0) = none) :
    ((extract_event_fallback now utt).start = none ∧
      (extract_event_fallback now utt).end_ = none ∧
      (extract_event_fallback now utt).duration_minutes = none ∧
      (extract_event_fallback now utt).intent = some "CreateEvent".data ∧
      (extract_event_fallback now utt).timezone = some "America/New_York".data ∧
      (extract_event_fallback now utt).title =
        (if ((splitWs utt).filter fun w => !(stop_words.contains (toLowerStr w))).length > 0 then
          some (joinSpace (((splitWs utt).filter fun w =>
            !(stop_words.contains (toLowerStr w))).take 4))
        else some (selectEventDate now (toLowerStr utt)).2) ∧
      (extract_event_fallback now utt).attendees =
        (if (findEmails utt).isEmpty then none else some (findEmails utt))) ∧
    (∀ (a b c : PyDateTime) (ed : EventData) (u : Str),
      (validate_and_correct_dates a b c ed u).intent = ed.intent ∧
      (validate_and_correct_dates a b c ed u).title = ed.title ∧
      (validate_and_correct_dates a b c ed u).duration_minutes = ed.duration_minutes ∧
      (validate_and_correct_dates a b c ed u).attendees = ed.attendees ∧
      (validate_and_correct_dates a b c ed u).timezone = ed.timezone) := by
  constructor
  · unfold extract_event_fallback
    dsimp only
    rw [fallbackTimeStage_invalid _ _ _ tm h hbad]
    rw [fallbackDurationStage_no_start (toLowerStr utt) _ rfl]
    refine ⟨((fallbackAttendeeStage_fields utt _).2.1).trans
        ((fallbackTitleStage_fields utt _).2.1),
      ((fallbackAttendeeStage_fields utt _).2.2.1).trans
        ((fallbackTitleStage_fields utt _).2.2.1),
      ((fallbackAttendeeStage_fields utt _).2.2.2.1).trans
        ((fallbackTitleStage_fields utt _).2.2.2.1),
      ((fallbackAttendeeStage_fields utt _).1).trans
        ((fallbackTitleStage_fields utt _).1),
      ((fallbackAttendeeStage_fields utt _).2.2.2.2.2).trans
        ((fallbackTitleStage_fields utt _).2.2.2.2.2),
      ?_, ?_⟩
    · exact ((fallbackAttendeeStage_fields utt _).2.2.2.2.1).trans
        (fallbackTitleStage_title utt _)
    · rw [fallbackAttendeeStage_attendees utt _, (fallbackTitleStage_fields utt _).2.2.2.2.1]
  · intro a b c ed u
    exact V_untouched_fields a b c ed u

/-- Witness for C8: `"at 99"` parses hour 99, which stays out of range
after normalization; the fallback reports no start/end/duration but a
title (`"99"`) and intent as usual. -/
theorem C8_soft_failure_no_raise_witness :
    ((extract_event_fallback ⟨2025, 6, 5, 10, 0, 0⟩ "at 99".data).start = none ∧
      (extract_event_fallback ⟨2025, 6, 5, 10, 0, 0⟩ "at 99".data).end_ = none ∧
      (extract_event_fallback ⟨2025, 6, 5, 10, 0, 0⟩ "at 99".data).duration_minutes = none ∧
      (extract_event_fallback ⟨2025, 6, 5, 10, 0, 0⟩ "at 99".data).intent =
        some "CreateEvent".data ∧
      (extract_event_fallback ⟨2025, 6, 5, 10, 0, 0⟩ "at 99".data).timezone =
        some "America/New_York".data ∧
      (extract_event_fallback ⟨2025, 6, 5, 10, 0, 0⟩ "at 99".data).title =
        (if ((splitWs "at 99".data).filter fun w =>
            !(stop_words.contains (toLowerStr w))).length > 0 then
          some (joinSpace (((splitWs "at 99".data).filter fun w =>
            !(stop_words.contains (toLowerStr w))).take 4))
        else some (selectEventDate ⟨2025, 6, 5, 10, 0, 0⟩ (toLowerStr "at 99".data)).2) ∧
      (extract_event_fallback ⟨2025, 6, 5, 10, 0, 0⟩ "at 99".data).attendees =
        (if (findEmails "at 99".data).isEmpty then none
          else some (findEmails "at 99".data))) ∧
    (∀ (a b c : PyDateTime) (ed : EventData) (u : Str),
      (validate_and_correct_dates a b c ed u).intent = ed.intent ∧
      (validate_and_correct_dates a b c ed u).title = ed.title ∧
      (validate_and_correct_dates a b c ed u).duration_minutes = ed.duration_minutes ∧
      (validate_and_correct_dates a b c ed u).attendees = ed.attendees ∧
      (validate_and_correct_dates a b c ed u).timezone = ed.timezone) :=
  C8_soft_failure_no_raise ⟨2025, 6, 5, 10, 0, 0⟩ "at 99".data ⟨99, none, none⟩
    (by decide) (by decide)

/-- C9 counterexample: `validate_and_correct_dates` reads the clock at
three sites; with the draft start `2025-06-05T09:00:00` and utterance
`"plan tomorrow"`, an execution whose year-check read returns
2026-01-01T00:00:01 but whose `today` read returns 2025-12-31T23:59:59
produces an output different from every single-moment execution built
from either moment — so the result is not a function of one captured
reference moment, refuting "captured once per call and not re-read
mid-computation". -/
theorem C9_counterexample :
    (validate_and_correct_dates ⟨2026, 1, 1, 0, 0, 1⟩ ⟨2026, 1, 1, 0, 0, 1⟩
        ⟨2025, 12, 31, 23, 59, 59⟩ { start := some "2025-06-05T09:00:00".data }
        "plan tomorrow".data ≠
      validate_and_correct_dates ⟨2025, 12, 31, 23, 59, 59⟩ ⟨2025, 12, 31, 23, 59, 59⟩
        ⟨2025, 12, 31, 23, 59, 59⟩ { start := some "2025-06-05T09:00:00".data }
        "plan tomorrow".data) ∧
    (validate_and_correct_dates ⟨2026, 1, 1, 0, 0, 1⟩ ⟨2026, 1, 1, 0, 0, 1⟩
        ⟨2025, 12, 31, 23, 59, 59⟩ { start := some "2025-06-05T09:00:00".data }
        "plan tomorrow".data ≠
      validate_and_correct_dates ⟨2026, 1, 1, 0, 0, 1⟩ ⟨2026, 1, 1, 0, 0, 1⟩
        ⟨2026, 1, 1, 0, 0, 1⟩ { start := some "2025-06-05T09:00:00".data }
        "plan tomorrow".data) := by
  constructor
  · decide
  · decide

/-- C9 (amended): both resolvers are deterministic in their inputs
together with their clock readings — two runs that observe the same
draft, utterance and clock-read sequence produce identical outputs.
`extract_event_fallback` captures the moment once (line 154), while
`validate_and_correct_dates` reads the clock at three sites, so its
output is a function of the triple of readings, not of a single
reference moment. -/
theorem C9_deterministic_given_reads
    (ed : EventData) (utt utt2 : Str) (a b c a2 b2 c2 t t2 : PyDateTime)
    (h1 : a = a2) (h2 : b = b2) (h3 : c = c2) (h4 : t = t2) :
    validate_and_correct_dates a b c ed utt = validate_and_correct_dates a2 b2 c2 ed utt ∧
      extract_event_fallback t utt2 = extract_event_fallback t2 utt2 := by
  subst h1
  subst h2
  subst h3
  subst h4
  exact ⟨rfl, rfl⟩

/-- Witness for the amended C9 at concrete readings. -/
theorem C9_deterministic_given_reads_witness :
    validate_and_correct_dates ⟨2025, 6, 5, 10, 0, 0⟩ ⟨2025, 6, 5, 10, 0, 0⟩
        ⟨2025, 6, 5, 10, 0, 0⟩ { start := some "2023-01-01T09:00:00".data } "ping".data =
      validate_and_correct_dates ⟨2025, 6, 5, 10, 0, 0⟩ ⟨2025, 6, 5, 10, 0, 0⟩
        ⟨2025, 6, 5, 10, 0, 0⟩ { start := some "2023-01-01T09:00:00".data } "ping".data ∧
      extract_event_fallback ⟨2025, 6, 5, 10, 0, 0⟩ "ping".data =
        extract_event_fallback ⟨2025, 6, 5, 10, 0, 0⟩ "ping".data :=
  C9_deterministic_given_reads { start := some "2023-01-01T09:00:00".data } "ping".data
    "ping".data ⟨2025, 6, 5, 10, 0, 0⟩ ⟨2025, 6, 5, 10, 0, 0⟩ ⟨2025, 6, 5, 10, 0, 0⟩
    ⟨2025, 6, 5, 10, 0, 0⟩ ⟨2025, 6, 5, 10, 0, 0⟩ ⟨2025, 6, 5, 10, 0, 0⟩
    ⟨2025, 6, 5, 10, 0, 0⟩ ⟨2025, 6, 5, 10, 0, 0⟩ rfl rfl rfl rfl

/-- C10: when the time regex does not match (even though a date phrase
is present), `extract_event_fallback` emits no `start`, `end` or
`duration_minutes`, and downstream `handle_once` reports the missing
start/end and does not attempt the CreateEvent action. -/
theorem C10_no_time_no_event
    (now : PyDateTime) (utt : Str)
    (_hdate : (findAbsoluteDate now.year (toLowerStr utt) month_patterns).isSome = true ∨
      (searchNextDay (toLowerStr utt)).isSome = true ∨
      containsSub (toLowerStr utt) "tomorrow".data = true)
    (htime : searchTime (toLowerStr utt) = none) :
    (extract_event_fallback now utt).start = none ∧
      (extract_event_fallback now utt).end_ = none ∧
      (extract_event_fallback now utt).duration_minutes = none ∧
      handle_once_decision (extract_event_fallback now utt) = Decision.missingStartEnd := by
  have hfields : (extract_event_fallback now utt).start = none ∧
      (extract_event_fallback now utt).end_ = none ∧
      (extract_event_fallback now utt).duration_minutes = none ∧
      (extract_event_fallback now utt).intent = some "CreateEvent".data := by
    unfold extract_event_fallback
    dsimp only
    rw [fallbackTimeStage_none _ _ _ htime]
    rw [fallbackDurationStage_no_start (toLowerStr utt) _ rfl]
    exact ⟨((fallbackAttendeeStage_fields utt _).2.1).trans
        ((fallbackTitleStage_fields utt _).2.1),
      ((fallbackAttendeeStage_fields utt _).2.2.1).trans
        ((fallbackTitleStage_fields utt _).2.2.1),
      ((fallbackAttendeeStage_fields utt _).2.2.2.1).trans
        ((fallbackTitleStage_fields utt _).2.2.2.1),
      ((fallbackAttendeeStage_fields utt _).1).trans
        ((fallbackTitleStage_fields utt _).1)⟩
  obtain ⟨hs, he, hd, hi⟩ := hfields
  refine ⟨hs, he, hd, ?_⟩
  unfold handle_once_decision
  rw [hs, he, hd, hi]
  simp [truthyStr, truthyNat]

/-- Witness for C10: `"meeting september 6th"` has a date phrase but no
time expression; no event fields are emitted and the dispatcher reports
the missing start/end. -/
theorem C10_no_time_no_event_witness :
    (extract_event_fallback ⟨2025, 6, 5, 10, 0, 0⟩ "meeting september 6th".data).start = none ∧
      (extract_event_fallback ⟨2025, 6, 5, 10, 0, 0⟩ "meeting september 6th".data).end_ = none ∧
      (extract_event_fallback ⟨2025, 6, 5, 10, 0, 0⟩
        "meeting september 6th".data).duration_minutes = none ∧
      handle_once_decision (extract_event_fallback ⟨2025, 6, 5, 10, 0, 0⟩
        "meeting september 6th".data) = Decision.missingStartEnd :=
  C10_no_time_no_event ⟨2025, 6, 5, 10, 0, 0⟩ "meeting september 6th".data
    (Or.inl (by decide)) (by decide)

end VoiceCal

/-! Concrete evaluations of the embedding, matching the scenarios of the
specification and the regex semantics of the source. -/

section SpotChecks
open VoiceCal
example : isoformat ⟨2025, 9, 6, 9, 0, 0⟩ = "2025-09-06T09:00:00".data := by decide
example : fromisoformatSimple "2025-09-06T09:00:00".data = some ⟨2025, 9, 6, 9, 0, 0⟩ := by decide
example : pyWeekday ⟨2025, 1, 6, 0, 0, 0⟩ = 0 := by decide
example : pyWeekday ⟨2024, 2, 29, 0, 0, 0⟩ = 3 := by decide
example : addDaysN ⟨2024, 2, 28, 10, 30, 0⟩ 2 = ⟨2024, 3, 1, 10, 30, 0⟩ := by decide
example : addMinutes ⟨2025, 12, 31, 23, 30, 0⟩ 45 = ⟨2026, 1, 1, 0, 15, 0⟩ := by decide
example : natToStr 2025 = "2025".data := by decide
example : containsSub "hello world".data "lo w".data = true := by decide
example : mkDate 2025 2 30 = none := by decide
example : searchMonthDay "september".data "meeting september 18th at 9".data = some 18 := by decide
example : findAbsoluteDate 2025 "meeting september 18th".data month_patterns =
    some ("september".data, 18, ⟨2025, 9, 18, 0, 0, 0⟩) := by decide
example : findAbsoluteDate 2025 "party february 30".data month_patterns = none := by decide
example : searchNextDay "see you next friday ok".data = some ("friday".data, 4) := by decide
example : searchTime "at 5".data = some ⟨5, none, none⟩ := by decide
example : searchTime "at 9:30 p.m. sharp".data = some ⟨9, some 30, some "p.m.".data⟩ := by decide
example : searchTime "that 7am".data = some ⟨7, none, some "am".data⟩ := by decide
example : searchDuration "for 2 hours".data = some (2, "hour".data) := by decide
example : searchDuration "for 45 minutes".data = some (45, "minute".data) := by decide
example : searchTTime "2023-09-06T09:15:00".data = some "09:15:00".data := by decide
example : days_until_next 0 0 = 7 := by decide
example : days_until_next 4 2 = 2 := by decide
example : days_until_next 1 5 = 3 := by decide
example : findEmails "mail bob@example.com now".data = ["bob@example.com".data] := by decide
example : findEmails "a@b.co1 x".data = [] := by decide
example : splitWs "  schedule a  meeting ".data =
    ["schedule".data, "a".data, "meeting".data] := by decide
example : joinSpace ["ab".data, "cd".data] = "ab cd".data := by decide
example :
    extract_event_fallback ⟨2025, 9, 3, 10, 0, 0⟩
        "Schedule a meeting with bob@example.com next friday at 3pm for 2 hours".data =
      { intent := some "CreateEvent".data,
        title := some "bob@example.com next friday 3pm".data,
        start := some "2025-09-05T15:00:00".data,
        end_ := some "2025-09-05T17:00:00".data,
        duration_minutes := some 120,
        attendees := some ["bob@example.com".data],
        timezone := some "America/New_York".data } := by decide
example :
    extract_event_fallback ⟨2025, 3, 1, 8, 30, 0⟩ "meeting september 6th at 9am".data =
      { intent := some "CreateEvent".data,
        title := some "september 6th 9am".data,
        start := some "2025-09-06T09:00:00".data,
        end_ := some "2025-09-06T10:00:00".data,
        duration_minutes := some 60,
        attendees := none,
        timezone := some "America/New_York".data } := by decide
example :
    validate_and_correct_dates ⟨2025, 9, 3, 10, 0, 0⟩ ⟨2025, 9, 3, 10, 0, 0⟩ ⟨2025, 9, 3, 10, 0, 0⟩
        { start := some "2023-09-06T09:00:00".data, end_ := some "2023-09-06T10:00:00".data }
        "book it tomorrow ok".data =
      { start := some "2025-09-04T09:00:00".data, end_ := some "2025-09-04T10:00:00".data } := by
  decide
example :
    validate_and_correct_dates ⟨2025, 9, 3, 10, 0, 0⟩ ⟨2025, 9, 3, 10, 0, 0⟩ ⟨2025, 9, 3, 10, 0, 0⟩
        { start := some "2023-01-01T09:00:00".data } "lunch september 6 tomorrow".data =
      { start := some "2025-09-06T09:00:00".data } := by decide
end SpotChecks
